import Mathlib

/-!
# Spiral data synthesis, evaluation and training loop of the two-layer network

A shallow embedding of `main.go` and `twolayernn/twolayernn.go`.

* Go `int` values are exact integers wrapped to 64-bit two's complement after
  every arithmetic operation (`wrapInt`).
* `float64` values are elements of an arbitrary carrier `α`; the arithmetic and
  the `math` functions the program calls are the fields of `Float64Ops α`.
  Theorems about shapes, indices and call order hold for every interpretation;
  theorems about magnitudes are stated for the real-number interpretation
  `realOps`.
* A run-time panic is the `error` branch of `Except Panic`; sequencing of
  statements that may panic is `Except.bind`.
* The memory allocator of the Go runtime is a `Heap`: the largest request that
  `makeslice` accepts and the number of bytes that can still be handed out.
* The pseudo-random generator is a state type `σ` with the three draw functions
  of `Rand σ α`.
* The calls into the automatic-differentiation engine and the tensor library are
  the fields of `Engine W α`, acting on an abstract world state `W`; every call
  returns the next world state and a Go error value. `gorgonia.Must` turns such
  an error into a panic.
-/

namespace Spiral

variable {α σ σ₁ σ₂ W : Type}

/-! ## Definitions -/

/-- Go `int` (64 bit): the two's-complement representative of an exact integer. -/
def wrapInt (x : Int) : Int := (x + 2 ^ 63) % 2 ^ 64 - 2 ^ 63

/-- Go `a * b` on `int`. -/
def imul (a b : Int) : Int := wrapInt (a * b)

/-- Go `a + b` on `int`. -/
def iadd (a b : Int) : Int := wrapInt (a + b)

/-- Go error values. -/
abbrev Err := String

/-- The run-time panics the program can raise, and the fatal error of the allocator. -/
inductive Panic where
  /-- The panic `makeslice: len out of range`. -/
  | makeLenOutOfRange
  /-- The fatal error `runtime: out of memory`. -/
  | outOfMemory
  | indexOutOfRange
  | intnNonPositive
  | shapeMismatch
  | explicit (e : Err)
  deriving DecidableEq, Repr

/-- The float64 arithmetic and `math` functions used by the program. -/
structure Float64Ops (α : Type) where
  /-- The float64 value of a decimal constant of the source text. -/
  const : ℚ → α
  /-- The conversion `float64(i)`. -/
  ofInt : Int → α
  add : α → α → α
  mul : α → α → α
  div : α → α → α
  neg : α → α
  sin : α → α
  cos : α → α
  exp : α → α
  log : α → α

/-- The generator `*rand.Rand`: every draw returns a value and the next state. -/
structure Rand (σ α : Type) where
  /-- The draw `rng.Intn(n)` for `0 < n`. -/
  Intn : Int → σ → Int × σ
  /-- The draw `rng.Float64()`. -/
  Float64 : σ → α × σ
  /-- The draw `rng.NormFloat64()`. -/
  NormFloat64 : σ → α × σ

/-- The call `rng.Intn(n)`, which panics when `n <= 0`. -/
def Rand.callIntn {σ α : Type} (rng : Rand σ α) (n : Int) (s : σ) : Except Panic (Int × σ) :=
  if n ≤ 0 then .error .intnNonPositive else .ok (rng.Intn n s)

/-- The memory allocator of the Go runtime as `make` sees it. -/
structure Heap where
  /-- The largest request in bytes that `makeslice` accepts (the runtime constant `maxAlloc`,
  `1 << 48` on linux/amd64). -/
  maxAlloc : Int
  /-- The number of bytes the allocator can still hand out. -/
  freeBytes : Int
  deriving DecidableEq, Repr

/-- The allocation `make([]float64, n)` (the runtime function `makeslice` with elements of
eight bytes): it panics with `len out of range` on a negative length, when the size `8*n` in
bytes overflows a machine word, and on a request of more than `maxAlloc` bytes; the program
dies with `out of memory` when the allocator cannot hand out the `8*n` bytes; otherwise the
result is `n` zeros and the allocator is left with `8*n` bytes less. -/
def make {α : Type} (mem : Heap) (zero : α) (n : Int) : Except Panic (List α × Heap) :=
  if n < 0 ∨ 2 ^ 64 ≤ 8 * n ∨ mem.maxAlloc < 8 * n then .error .makeLenOutOfRange
  else if mem.freeBytes < 8 * n then .error .outOfMemory
  else .ok (List.replicate n.toNat zero, ⟨mem.maxAlloc, mem.freeBytes - 8 * n⟩)

/-- The assignment `xs[i] = v` with Go's bounds check. -/
def store {α : Type} (xs : List α) (i : Int) (v : α) : Except Panic (List α) :=
  if 0 ≤ i ∧ i < xs.length then .ok (xs.set i.toNat v) else .error .indexOutOfRange

/-- The read `xs[i]` with Go's bounds check. -/
def load {α : Type} (xs : List α) (i : Int) : Except Panic α :=
  if 0 ≤ i then
    (match xs[i.toNat]? with
      | some v => .ok v
      | none => .error .indexOutOfRange)
  else .error .indexOutOfRange

/-- The loop `for i := start; i < start + count; i++ { body }`; an `error` leaves the loop. -/
def forLoop {ε st : Type} (body : Int → st → Except ε st) : Nat → Int → st → Except ε st
  | 0, _, s => .ok s
  | k + 1, i, s => (body i s).bind (forLoop body k (i + 1))

/-- A `*tensor.Dense`: a shape and a flat row-major backing buffer. -/
structure Dense (α : Type) where
  shape : List Int
  data : List α
  deriving DecidableEq, Repr

/-- The constructor `tensor.New(tensor.WithShape(r, c), tensor.WithBacking(xs))`: the
library refuses a shape whose total size differs from the length of the backing. -/
def tensorNew {α : Type} (r c : Int) (xs : List α) : Except Panic (Dense α) :=
  if 0 ≤ r ∧ 0 ≤ c ∧ r * c = xs.length then .ok ⟨[r, c], xs⟩ else .error .shapeMismatch

/-- Entry `(r, c)` of a matrix with `cols` columns stored row-major. -/
def entry {α : Type} (xs : List α) (cols r c : Nat) : Option α := xs[r * cols + c]?

/-- The angle `float64(cls)*4.0 + 4.0*rate + g*0.2`. -/
def thetaOf (ops : Float64Ops α) (cls : Int) (rate g : α) : α :=
  ops.add (ops.add (ops.mul (ops.ofInt cls) (ops.const 4.0)) (ops.mul (ops.const 4.0) rate))
    (ops.mul g (ops.const 0.2))

/-- The first coordinate `rate * math.Sin(theta)`. -/
def pointX (ops : Float64Ops α) (cls : Int) (rate g : α) : α :=
  ops.mul rate (ops.sin (thetaOf ops cls rate g))

/-- The second coordinate `rate * math.Cos(theta)`. -/
def pointY (ops : Float64Ops α) (cls : Int) (rate g : α) : α :=
  ops.mul rate (ops.cos (thetaOf ops cls rate g))

/-- The rate `float64(i) / float64(sampleNum)` of `createTrainingData`. -/
def rateOf (ops : Float64Ops α) (i sampleNum : Int) : α :=
  ops.div (ops.ofInt i) (ops.ofInt sampleNum)

/-- Body of the inner loop of `createTrainingData`; the row index is
`ix = sampleNum*j + i`. -/
def trainingBody (ops : Float64Ops α) (rng : Rand σ α) (dimensionNum classNum sampleNum : Int)
    (j i : Int) (st : List α × List α × σ) : Except Panic (List α × List α × σ) :=
  (store st.1 (imul (iadd (imul sampleNum j) i) dimensionNum)
    (pointX ops j (rateOf ops i sampleNum) (rng.NormFloat64 st.2.2).1)).bind fun inputArray =>
  (store inputArray (iadd (imul (iadd (imul sampleNum j) i) dimensionNum) 1)
    (pointY ops j (rateOf ops i sampleNum) (rng.NormFloat64 st.2.2).1)).bind fun inputArray =>
  (store st.2.1 (iadd (imul (iadd (imul sampleNum j) i) classNum) j) (ops.const 1)).bind
    fun outputArray => .ok (inputArray, outputArray, (rng.NormFloat64 st.2.2).2)

/-- The allocator can hand out a buffer of `n₁` and then a buffer of `n₂` float64 elements:
`maxAlloc` is below `2^64` (as on every platform), neither request exceeds `maxAlloc` bytes,
and together they fit in the free memory. -/
def Heap.Fits (mem : Heap) (n₁ n₂ : Nat) : Prop :=
  mem.maxAlloc < 2 ^ 64 ∧ 8 * (n₁ : Int) ≤ mem.maxAlloc ∧ 8 * (n₂ : Int) ≤ mem.maxAlloc ∧
    8 * (n₁ : Int) + 8 * (n₂ : Int) ≤ mem.freeBytes

/-- The function `createTrainingData`, run on the allocator state `mem`. -/
def createTrainingData (ops : Float64Ops α) (rng : Rand σ α) (mem : Heap)
    (dimensionNum classNum sampleNum : Int) (s : σ) : Except Panic (Dense α × Dense α × σ) :=
  (make mem (ops.const 0) (imul (imul sampleNum classNum) dimensionNum)).bind fun inputArray =>
  (make inputArray.2 (ops.const 0) (imul (imul sampleNum classNum) classNum)).bind
    fun outputArray =>
  (forLoop (fun j st => forLoop (trainingBody ops rng dimensionNum classNum sampleNum j)
      sampleNum.toNat 0 st) classNum.toNat 0 (inputArray.1, outputArray.1, s)).bind fun st =>
  (tensorNew (imul sampleNum classNum) dimensionNum st.1).bind fun input =>
  (tensorNew (imul sampleNum classNum) classNum st.2.1).bind fun output =>
  .ok (input, output, st.2.2)

/-- Body of the loop of `createTestData`: the three draws `Intn`, `Float64`, `NormFloat64`
are taken in this order. -/
def testBody (ops : Float64Ops α) (rng : Rand σ α) (dimensionNum classNum : Int)
    (i : Int) (st : List α × List α × σ) : Except Panic (List α × List α × σ) :=
  (rng.callIntn classNum st.2.2).bind fun drawn =>
  (store st.1 (imul i dimensionNum)
    (pointX ops drawn.1 (rng.Float64 drawn.2).1
      (rng.NormFloat64 (rng.Float64 drawn.2).2).1)).bind fun inputArray =>
  (store inputArray (iadd (imul i dimensionNum) 1)
    (pointY ops drawn.1 (rng.Float64 drawn.2).1
      (rng.NormFloat64 (rng.Float64 drawn.2).2).1)).bind fun inputArray =>
  (store st.2.1 (iadd (imul i classNum) drawn.1) (ops.const 1)).bind fun outputArray =>
  .ok (inputArray, outputArray, (rng.NormFloat64 (rng.Float64 drawn.2).2).2)

/-- The function `createTestData`, run on the allocator state `mem`. -/
def createTestData (ops : Float64Ops α) (rng : Rand σ α) (mem : Heap)
    (dimensionNum classNum sampleNum : Int) (s : σ) : Except Panic (Dense α × Dense α × σ) :=
  (make mem (ops.const 0) (imul (imul sampleNum classNum) dimensionNum)).bind fun inputArray =>
  (make inputArray.2 (ops.const 0) (imul (imul sampleNum classNum) classNum)).bind
    fun outputArray =>
  (forLoop (testBody ops rng dimensionNum classNum)
      (imul sampleNum classNum).toNat 0 (inputArray.1, outputArray.1, s)).bind fun st =>
  (tensorNew (imul sampleNum classNum) dimensionNum st.1).bind fun input =>
  (tensorNew (imul sampleNum classNum) classNum st.2.1).bind fun output =>
  .ok (input, output, st.2.2)

/-- A computable interpretation over the rationals: exact field arithmetic, with the
transcendental functions replaced by rational stand-ins. -/
def ratOps : Float64Ops ℚ where
  const := fun q => q
  ofInt := fun i => (i : ℚ)
  add := fun a b => a + b
  mul := fun a b => a * b
  div := fun a b => a / b
  neg := fun a => -a
  sin := fun a => a
  cos := fun _ => 1
  exp := fun a => 1 + a
  log := fun a => a - 1

/-- The allocator of linux/amd64 (`maxAlloc = 1 << 48`) with one GiB to hand out. -/
def sampleHeap : Heap := ⟨2 ^ 48, 2 ^ 30⟩

/-- A small counter-based generator over the rationals. -/
def counterRand : Rand Nat ℚ where
  Intn := fun n s => ((s : Int) % n, s + 1)
  Float64 := fun s => (((s % 4 : Nat) : ℚ) / 4, s + 1)
  NormFloat64 := fun s => (((s % 3 : Nat) : ℚ) - 1, s + 1)

/-- State of the generator after `k` successive `NormFloat64` draws. -/
def gaussState (rng : Rand σ α) (s : σ) : Nat → σ
  | 0 => s
  | k + 1 => (rng.NormFloat64 (gaussState rng s k)).2

/-- Value of draw number `k` (counting from zero) of successive `NormFloat64` draws. -/
def gaussDraw (rng : Rand σ α) (s : σ) (k : Nat) : α :=
  (rng.NormFloat64 (gaussState rng s k)).1

/-- Loop invariant of `createTrainingData` after `k` samples have been written: rows
`r < k` hold their points, the label buffer holds a `1` exactly at column `r / S` of the
rows `r < k`, and the generator has made `k` Gaussian draws. -/
structure TrainInv (ops : Float64Ops α) (rng : Rand σ α) (D C S : Nat) (s : σ) (k : Nat)
    (st : List α × List α × σ) : Prop where
  lenIn : st.1.length = S * C * D
  lenOut : st.2.1.length = S * C * C
  state : st.2.2 = gaussState rng s k
  rowsX : ∀ r, r < k → st.1[r * D]? =
    some (pointX ops ((r / S : Nat) : Int) (rateOf ops ((r % S : Nat) : Int) (S : Int))
      (gaussDraw rng s r))
  rowsY : ∀ r, r < k → st.1[r * D + 1]? =
    some (pointY ops ((r / S : Nat) : Int) (rateOf ops ((r % S : Nat) : Int) (S : Int))
      (gaussDraw rng s r))
  labels : ∀ r c, r < S * C → c < C →
    st.2.1[r * C + c]? = some (if r < k ∧ c = r / S then ops.const 1 else ops.const 0)

/-- The contract of `rng.Intn`: for `0 < n` the draw lies in `[0, n)`. -/
def Rand.IntnInRange (rng : Rand σ α) : Prop :=
  ∀ (n : Int) (s : σ), 0 < n → 0 ≤ (rng.Intn n s).1 ∧ (rng.Intn n s).1 < n

/-- State of the generator after `k` iterations of the loop of `createTestData`, each of
which draws `Intn(classNum)`, `Float64()` and `NormFloat64()` in this order. -/
def testState (rng : Rand σ α) (C : Int) (s : σ) : Nat → σ
  | 0 => s
  | k + 1 => (rng.NormFloat64 (rng.Float64 (rng.Intn C (testState rng C s k)).2).2).2

/-- The class drawn for row `k`. -/
def testClass (rng : Rand σ α) (C : Int) (s : σ) (k : Nat) : Int :=
  (rng.Intn C (testState rng C s k)).1

/-- The uniform rate drawn for row `k`. -/
def testRate (rng : Rand σ α) (C : Int) (s : σ) (k : Nat) : α :=
  (rng.Float64 (rng.Intn C (testState rng C s k)).2).1

/-- The Gaussian value drawn for row `k`. -/
def testGauss (rng : Rand σ α) (C : Int) (s : σ) (k : Nat) : α :=
  (rng.NormFloat64 (rng.Float64 (rng.Intn C (testState rng C s k)).2).2).1

/-- Loop invariant of `createTestData` after `k` rows have been written. -/
structure TestInv (ops : Float64Ops α) (rng : Rand σ α) (D C S : Nat) (s : σ) (k : Nat)
    (st : List α × List α × σ) : Prop where
  lenIn : st.1.length = S * C * D
  lenOut : st.2.1.length = S * C * C
  state : st.2.2 = testState rng (C : Int) s k
  rowsX : ∀ r, r < k → st.1[r * D]? =
    some (pointX ops (testClass rng (C : Int) s r) (testRate rng (C : Int) s r)
      (testGauss rng (C : Int) s r))
  rowsY : ∀ r, r < k → st.1[r * D + 1]? =
    some (pointY ops (testClass rng (C : Int) s r) (testRate rng (C : Int) s r)
      (testGauss rng (C : Int) s r))
  labels : ∀ r c, r < S * C → c < C →
    st.2.1[r * C + c]? =
      some (if r < k ∧ (c : Int) = testClass rng (C : Int) s r then ops.const 1 else ops.const 0)

/-- Row `r` of a matrix with `C` columns is one-hot: one entry is `1`, every other entry is
`0` and is not `1`. -/
def OneHotRow (ops : Float64Ops α) (xs : List α) (C r : Nat) : Prop :=
  ∃ c, c < C ∧ entry xs C r c = some (ops.const 1) ∧
    ∀ c', c' < C → c' ≠ c →
      entry xs C r c' = some (ops.const 0) ∧ entry xs C r c' ≠ some (ops.const 1)

/-- Row `r` of a matrix with `C` columns stored row-major. -/
def rowOf (xs : List α) (C r : Nat) : List α := (xs.drop (r * C)).take C

/-- Scan for the arg-max: `b` is the best index so far and `v` its value; a later entry
replaces it only when it is strictly larger, so the first maximum wins. -/
def argmaxFrom (lt : α → α → Bool) : List α → Nat → Nat → α → Nat
  | [], _, b, _ => b
  | x :: xs, i, b, v =>
    if lt v x then argmaxFrom lt xs (i + 1) i x else argmaxFrom lt xs (i + 1) b v

/-- Modelled from the spec: the arg-max of one row, "first index attaining the maximum"
(the arg-max of the tensor library, which is not part of the repository). -/
def argmaxRow (lt : α → α → Bool) : List α → Option Nat
  | [] => none
  | x :: xs => some (argmaxFrom lt xs 1 0 x)

/-- The real-number interpretation of the float64 operations: exact arithmetic and the
real sine, cosine, exponential and logarithm. -/
noncomputable def realOps : Float64Ops ℝ where
  const := fun q => (q : ℝ)
  ofInt := fun i => (i : ℝ)
  add := fun a b => a + b
  mul := fun a b => a * b
  div := fun a b => a / b
  neg := fun a => -a
  sin := Real.sin
  cos := Real.cos
  exp := Real.exp
  log := Real.log

/-- A generator over the reals whose every draw is zero. -/
def zeroRand : Rand Unit ℝ where
  Intn := fun _ s => (0, s)
  Float64 := fun s => (0, s)
  NormFloat64 := fun s => (0, s)

/-- Two runs of a loop correspond: both panic with the same panic, or both return and the
final states are related by `R`. -/
def RelRun {ε S₁ S₂ : Type} (R : S₁ → S₂ → Prop) : Except ε S₁ → Except ε S₂ → Prop
  | .ok a, .ok b => R a b
  | .error e, .error e' => e = e'
  | _, _ => False

/-- Two loop states of `createTrainingData` under two generators correspond: equal buffers,
and generator states from which the two streams of Gaussian draws agree. -/
def SameBuffers (rng₁ : Rand σ₁ α) (rng₂ : Rand σ₂ α)
    (a : List α × List α × σ₁) (b : List α × List α × σ₂) : Prop :=
  a.1 = b.1 ∧ a.2.1 = b.2.1 ∧ ∀ k, gaussDraw rng₁ a.2.2 k = gaussDraw rng₂ b.2.2 k

/-- A second counter-based generator with a different state type and different uniform
draws, whose Gaussian draws coincide with those of `counterRand`. -/
def pairRand : Rand (Nat × Nat) ℚ where
  Intn := fun _ s => (0, (s.1, s.2 + 1))
  Float64 := fun s => (1 / 2, (s.1, s.2 + 2))
  NormFloat64 := fun s => (((s.1 % 3 : Nat) : ℚ) - 1, (s.1 + 1, s.2 + 7))

/-- An allocator state of linux/amd64 with one MiB free. -/
def smallHeap : Heap := ⟨2 ^ 48, 2 ^ 20⟩

/-- A `gorgonia.Value`: a tensor, or a value of another kind (a scalar). -/
inductive Value (α : Type) where
  | tensor (t : Dense α)
  | other
  deriving DecidableEq, Repr

/-- The calls the program makes into the graph engine and the tensor library. `W` is the
state of the graph, virtual machine and solver. A call returns what its Go signature
returns; the panics of the program are those of its own code (`gorgonia.Must`,
`panic(err)`, `make`, indexing), a panic raised inside the library is not modelled. -/
structure Engine (W α : Type) where
  /-- The call `gorgonia.NewTapeMachine(g, ...)`. -/
  NewTapeMachine : W → W
  /-- The call `gorgonia.NewVanillaSolver(WithBatchSize(b), WithLearnRate(r))`. -/
  NewVanillaSolver : α → α → W → W
  /-- The call `gorgonia.NewTensor(m.graph, ..., gorgonia.WithName("Expected"))`. -/
  NewTensorExpected : W → W
  /-- The call `gorgonia.SoftMax(m.Output)`. -/
  SoftMax : W → W × Option Err
  /-- The call `gorgonia.Log(softMaxNode)`. -/
  Log : W → W × Option Err
  /-- The call `gorgonia.HadamardProd(expectedNode, logNode)`. -/
  HadamardProd : W → W × Option Err
  /-- The call `gorgonia.Sum(lossesNode, 1)`. -/
  Sum : W → W × Option Err
  /-- The call `gorgonia.Mean(sumNode)`. -/
  Mean : W → W × Option Err
  /-- The call `gorgonia.Neg(costNode)`. -/
  Neg : W → W × Option Err
  /-- The call `gorgonia.Grad(costNode, m.Learnables()...)`. -/
  Grad : W → W × Option Err
  /-- The call `gorgonia.Read(costNode, &m.CostValue)`. -/
  ReadCost : W → W
  /-- The call `gorgonia.Let(model.Input, d)`. -/
  LetInput : Dense α → W → W × Option Err
  /-- The call `gorgonia.Let(model.Expected, d)`. -/
  LetExpected : Dense α → W → W × Option Err
  /-- The call `vm.RunAll()`. -/
  RunAll : W → W × Option Err
  /-- The call `solver.Step(gorgonia.NodesToValueGrads(model.Learnables()))`. -/
  Step : W → W × Option Err
  /-- The call `vm.Reset()`. -/
  Reset : W → W
  /-- The progress line `log.Printf("loop:%d, cost:%v, ...", i, model.CostValue, ...)`. -/
  LogProgress : Int → W → W
  /-- The read `model.Output.Value()`. -/
  OutputValue : W → Value α
  /-- The call `tensor.Argmax(t, axis)` followed by `.Data().([]int)`. -/
  Argmax : Dense α → Int → Except Err (List Int)

/-- What `checkAccuracy` does when it does not panic: it prints the accuracy line and
returns `nil`, or it returns an error and prints nothing. -/
inductive CheckOutcome (α : Type) where
  | reported (testCount correctAnswerNum : Int) (ratio : α)
  | failed (err : Err)
  deriving DecidableEq, Repr

/-- Body of the comparison loop: `if actualData[i] == expectedData[i] { correctAnswerNum++ }`. -/
def compareBody (actualData expectedData : List Int) (i : Int) (correctAnswerNum : Int) :
    Except Panic Int :=
  (load actualData i).bind fun a =>
  (load expectedData i).bind fun e =>
  .ok (if a = e then iadd correctAnswerNum 1 else correctAnswerNum)

/-- The comparison loop `for i := 0; i < testCount; i++` of `checkAccuracy` and the
`fmt.Printf` after it. -/
def checkCompare (ops : Float64Ops α) (testCount : Int) (actualData expectedData : List Int) :
    Except Panic (CheckOutcome α) :=
  (forLoop (compareBody actualData expectedData) testCount.toNat 0 0).bind
    fun correctAnswerNum =>
  .ok (.reported testCount correctAnswerNum
    (ops.div (ops.ofInt correctAnswerNum) (ops.ofInt testCount)))

/-- The part of `checkAccuracy` after `vm.RunAll()`: the type assertion on the output,
the two arg-max calls (`panic(err)` after the first, `return err` after the second) and the
comparison. -/
def checkInspect (ops : Float64Ops α) (eng : Engine W α) (testCount : Int)
    (expectedDense : Dense α) (w : W) : Except Panic (CheckOutcome α) :=
  match eng.OutputValue w with
  | .other => .ok (.failed "expects a tensor")
  | .tensor t =>
    match eng.Argmax t 1 with
    | .error err => .error (.explicit err)
    | .ok actualData =>
      match eng.Argmax expectedDense 1 with
      | .error err => .ok (.failed err)
      | .ok expectedData => checkCompare ops testCount actualData expectedData

/-- The part of `checkAccuracy` from `vm.RunAll()` on. -/
def checkRun (ops : Float64Ops α) (eng : Engine W α) (testCount : Int)
    (expectedDense : Dense α) (w : W) : Except Panic (CheckOutcome α × W) :=
  match (eng.RunAll w).2 with
  | some err => .ok (.failed err, (eng.RunAll w).1)
  | none =>
    (checkInspect ops eng testCount expectedDense (eng.RunAll w).1).bind fun r =>
    .ok (r, (eng.RunAll w).1)

/-- The part of `checkAccuracy` from `gorgonia.Let(model.Input, inputDense)` on. -/
def checkLet (ops : Float64Ops α) (eng : Engine W α) (testCount : Int)
    (inputDense expectedDense : Dense α) (w : W) : Except Panic (CheckOutcome α × W) :=
  match (eng.LetInput inputDense w).2 with
  | some err => .ok (.failed err, (eng.LetInput inputDense w).1)
  | none => checkRun ops eng testCount expectedDense (eng.LetInput inputDense w).1

/-- The function `checkAccuracy`, run on the allocator state `mem`: the outcome, the engine
state and the generator state it leaves, or a panic. -/
def checkAccuracy (ops : Float64Ops α) (rng : Rand σ α) (eng : Engine W α) (mem : Heap)
    (dimensionNum classNum testCount : Int) (w : W) (s : σ) :
    Except Panic (CheckOutcome α × W × σ) :=
  (createTestData ops rng mem dimensionNum classNum testCount s).bind fun data =>
  (checkLet ops eng testCount data.1 data.2.1 (eng.NewTapeMachine w)).bind fun r =>
  .ok (r.1, r.2, data.2.2)

/-- Number of indices `i < n` at which the two index lists agree. -/
def matchCount (actualData expectedData : List Int) : Nat → Nat
  | 0 => 0
  | k + 1 => matchCount actualData expectedData k +
      (if actualData[k]? = expectedData[k]? then 1 else 0)

/-- Modelled from the spec: arg-max along axis 1 of a matrix, one index per row, first
index attaining the maximum (the arg-max of the tensor library, which is not part of the
repository); other shapes and axes are refused with a dimension error. -/
def denseArgmax (lt : α → α → Bool) (t : Dense α) (axis : Int) : Except Err (List Int) :=
  match t.shape with
  | [r, c] =>
    if axis = 1 then
      .ok ((List.range r.toNat).map fun i => ((argmaxRow lt (rowOf t.data c.toNat i)).getD 0 : Nat))
    else .error "dimension mismatch"
  | _ => .error "dimension mismatch"

/-- An engine over the rationals whose model output is the fixed value `out`, whose calls
all succeed, and whose arg-max is `denseArgmax`. -/
def constEngine (out : Value ℚ) : Engine Unit ℚ where
  NewTapeMachine := fun w => w
  NewVanillaSolver := fun _ _ w => w
  NewTensorExpected := fun w => w
  SoftMax := fun w => (w, none)
  Log := fun w => (w, none)
  HadamardProd := fun w => (w, none)
  Sum := fun w => (w, none)
  Mean := fun w => (w, none)
  Neg := fun w => (w, none)
  Grad := fun w => (w, none)
  ReadCost := fun w => w
  LetInput := fun _ w => (w, none)
  LetExpected := fun _ w => (w, none)
  RunAll := fun w => (w, none)
  Step := fun w => (w, none)
  Reset := fun w => w
  LogProgress := fun _ w => w
  OutputValue := fun _ => out
  Argmax := denseArgmax (fun a b : ℚ => decide (a < b))

deriving instance DecidableEq for Except

/-- The value of a graph node of matrix shape `(n, m)`. -/
abbrev Mat (α : Type) (n m : Nat) := Fin n → Fin m → α

/-- A running sum `x_0 + x_1 + ...` starting from zero. -/
def sumFin (ops : Float64Ops α) {n : Nat} (f : Fin n → α) : α :=
  (List.ofFn f).foldl ops.add (ops.const 0)

/-- The node `gorgonia.Mul(a, b)` on matrices: the matrix product. -/
def gMul (ops : Float64Ops α) {n k m : Nat} (a : Mat α n k) (b : Mat α k m) : Mat α n m :=
  fun i j => sumFin ops fun l => ops.mul (a i l) (b l j)

/-- The node `gorgonia.BroadcastAdd(a, b, nil, []byte{0})`: the one-row matrix `b` is
repeated along axis 0 and added. -/
def gBroadcastAdd (ops : Float64Ops α) {n m : Nat} (a : Mat α n m) (b : Mat α 1 m) : Mat α n m :=
  fun i j => ops.add (a i j) (b 0 j)

/-- The node `gorgonia.Sigmoid(a)`: `1 / (1 + exp(-x))` entry by entry. -/
def gSigmoid (ops : Float64Ops α) {n m : Nat} (a : Mat α n m) : Mat α n m :=
  fun i j => ops.div (ops.const 1) (ops.add (ops.const 1) (ops.exp (ops.neg (a i j))))

/-- The node `gorgonia.SoftMax(a)` on a matrix: `exp(x) / sum of exp` along every row. -/
def gSoftMax (ops : Float64Ops α) {n m : Nat} (a : Mat α n m) : Mat α n m :=
  fun i j => ops.div (ops.exp (a i j)) (sumFin ops fun l => ops.exp (a i l))

/-- The node `gorgonia.Log(a)`. -/
def gLog (ops : Float64Ops α) {n m : Nat} (a : Mat α n m) : Mat α n m :=
  fun i j => ops.log (a i j)

/-- The node `gorgonia.HadamardProd(a, b)`. -/
def gHadamardProd (ops : Float64Ops α) {n m : Nat} (a b : Mat α n m) : Mat α n m :=
  fun i j => ops.mul (a i j) (b i j)

/-- The node `gorgonia.Sum(a, 1)`: the sum along axis 1, one value per row. -/
def gSum1 (ops : Float64Ops α) {n m : Nat} (a : Mat α n m) : Fin n → α :=
  fun i => sumFin ops fun j => a i j

/-- The node `gorgonia.Mean(v)`. -/
def gMean (ops : Float64Ops α) {n : Nat} (v : Fin n → α) : α :=
  ops.div (sumFin ops v) (ops.ofInt (n : Int))

/-- The learnable nodes of `TwoLayerNeuralNetworkModel`, with the shapes given in `New`. -/
structure TwoLayerNeuralNetworkModel (α : Type) (inputSize hiddenSize outputSize : Nat) where
  weight1 : Mat α inputSize hiddenSize
  weight2 : Mat α hiddenSize outputSize
  bias1 : Mat α 1 hiddenSize
  bias2 : Mat α 1 outputSize

/-- The node `layer1Result` of `RegistryForwardNode`. -/
def layer1Result (ops : Float64Ops α) {inputSize hiddenSize outputSize sampleNum : Nat}
    (m : TwoLayerNeuralNetworkModel α inputSize hiddenSize outputSize)
    (input : Mat α sampleNum inputSize) : Mat α sampleNum hiddenSize :=
  gSigmoid ops (gBroadcastAdd ops (gMul ops input m.weight1) m.bias1)

/-- The value of the node `m.Output` wired by `RegistryForwardNode`. -/
def RegistryForwardNode (ops : Float64Ops α) {inputSize hiddenSize outputSize sampleNum : Nat}
    (m : TwoLayerNeuralNetworkModel α inputSize hiddenSize outputSize)
    (input : Mat α sampleNum inputSize) : Mat α sampleNum outputSize :=
  gBroadcastAdd ops (gMul ops (layer1Result ops m input) m.weight2) m.bias2

/-- The value of the node `costNode` wired by `RegistryCalcGradNode`, as a function of the
values of `m.Output` and `expectedNode`. -/
def RegistryCalcGradNode (ops : Float64Ops α) {sampleNum outputSize : Nat}
    (output expected : Mat α sampleNum outputSize) : α :=
  ops.neg (gMean ops (gSum1 ops (gHadamardProd ops expected (gLog ops (gSoftMax ops output)))))

/-- A one-by-one model over the reals with weights `3` and `5`, bias `b1 = 0` and
`b2 = 7`. -/
noncomputable def sampleModel : TwoLayerNeuralNetworkModel ℝ 1 1 1 where
  weight1 := fun _ _ => 3
  weight2 := fun _ _ => 5
  bias1 := fun _ _ => 0
  bias2 := fun _ _ => 7

/-- The all-zero one-by-two logit matrix. -/
noncomputable def zeroLogits : Mat ℝ 1 2 := fun _ _ => 0

/-- A one-by-two expected matrix with a negative entry: `(-1, 0)`. -/
noncomputable def negativeExpected : Mat ℝ 1 2 := fun _ j => if j = 0 then -1 else 0

/-- The one-hot one-by-two expected matrix `(1, 0)`. -/
noncomputable def oneHotExpected : Mat ℝ 1 2 := fun _ j => if j = 0 then 1 else 0

/-- A call that returns a Go error: on a non-nil error the caller returns at once, which
is the `error` branch carrying the engine state and the error. -/
def call (f : W → W × Option Err) (w : W) : Except (W × Err) W :=
  match (f w).2 with
  | some err => .error ((f w).1, err)
  | none => .ok (f w).1

/-- The wrapper `gorgonia.Must(...)` around a call that returns a node and a Go error: a
non-nil error is raised as a panic. -/
def must (f : W → W × Option Err) (w : W) : Except Panic W :=
  match (f w).2 with
  | some err => .error (.explicit err)
  | none => .ok (f w).1

/-- The method `RegistryCalcGradNode` of the model (`twolayernn.go`) as the sequence of its
calls into the engine: the expected node, the six graph operations wrapped in
`gorgonia.Must`, and `gorgonia.Grad`, whose error is returned; after a successful `Grad` the
cost is bound with `gorgonia.Read`. The result is the engine state and the returned Go
error, or the panic raised by `Must`. -/
def Engine.RegistryCalcGradNode (eng : Engine W α) (w : W) : Except Panic (W × Option Err) :=
  (must eng.SoftMax (eng.NewTensorExpected w)).bind fun w =>
  (must eng.Log w).bind fun w =>
  (must eng.HadamardProd w).bind fun w =>
  (must eng.Sum w).bind fun w =>
  (must eng.Mean w).bind fun w =>
  (must eng.Neg w).bind fun w =>
  match (eng.Grad w).2 with
  | some err => .ok ((eng.Grad w).1, some err)
  | none => .ok (eng.ReadCost (eng.Grad w).1, none)

/-- One iteration of the loop of `train`: the two injections, the run, the solver step, the
reset, and the progress line every 10000 iterations. -/
def trainEpoch (eng : Engine W α) (inputDense expectedDense : Dense α) (i : Int) (w : W) :
    Except (W × Err) W :=
  (call (eng.LetInput inputDense) w).bind fun w =>
  (call (eng.LetExpected expectedDense) w).bind fun w =>
  (call eng.RunAll w).bind fun w =>
  (call eng.Step w).bind fun w =>
  .ok (if i % 10000 = 0 then eng.LogProgress i (eng.Reset w) else eng.Reset w)

/-- The value `train` returns after its loop: the error of the failing call, or `nil`. -/
def finishLoop (r : Except (W × Err) W) (s : σ) : Option Err × W × σ :=
  match r with
  | .error x => (some x.2, x.1, s)
  | .ok w => (none, w, s)

/-- The part of `train` after the gradient registration: the tape machine, the single call
of `createTrainingData`, and the loop `for i := 0; i < maxEpoch; i++`. -/
def trainLoop (ops : Float64Ops α) (rng : Rand σ α) (eng : Engine W α) (mem : Heap)
    (dimensionNum classNum sampleNum maxEpoch : Int) (w : W) (s : σ) :
    Except Panic (Option Err × W × σ) :=
  (createTrainingData ops rng mem dimensionNum classNum sampleNum s).bind fun data =>
  .ok (finishLoop (forLoop (trainEpoch eng data.1 data.2.1) maxEpoch.toNat 0
    (eng.NewTapeMachine w)) data.2.2)

/-- The function `train`, run on the allocator state `mem`: the error it returns (`none`
for `nil`), the engine state and the generator state it leaves, or a panic. -/
def train (ops : Float64Ops α) (rng : Rand σ α) (eng : Engine W α) (mem : Heap)
    (dimensionNum classNum sampleNum maxEpoch batchSize : Int) (w : W) (s : σ) :
    Except Panic (Option Err × W × σ) :=
  (eng.RegistryCalcGradNode
    (eng.NewVanillaSolver (ops.ofInt batchSize) (ops.const 1) w)).bind fun reg =>
  match reg.2 with
  | some err => .ok (some err, reg.1, s)
  | none => trainLoop ops rng eng mem dimensionNum classNum sampleNum maxEpoch reg.1 s

/-- The calls into the engine, as recorded in a history. -/
inductive Event (α : Type) where
  | newTapeMachine
  | newVanillaSolver (batchSize learnRate : α)
  | newTensorExpected
  | softMax
  | log
  | hadamardProd
  | sum
  | mean
  | neg
  | grad
  | readCost
  | letInput (d : Dense α)
  | letExpected (d : Dense α)
  | runAll
  | step
  | reset
  | logProgress (i : Int)
  deriving DecidableEq

/-- The calls that return a Go error. -/
def Event.isFallible : Event α → Bool
  | .softMax => true
  | .log => true
  | .hadamardProd => true
  | .sum => true
  | .mean => true
  | .neg => true
  | .grad => true
  | .letInput _ => true
  | .letExpected _ => true
  | .runAll => true
  | .step => true
  | _ => false

/-- The gradient registrations `gorgonia.Grad`. -/
def Event.isGrad : Event α → Bool
  | .grad => true
  | _ => false

/-- The solver updates. -/
def Event.isStep : Event α → Bool
  | .step => true
  | _ => false

/-- A fallible call of the recording engine: the call is appended to the history and the
oracle `fails` decides from the history, this call included, whether it fails. -/
def record (fails : List (Event α) → Option Err) (ev : Event α) (w : List (Event α)) :
    List (Event α) × Option Err :=
  (w ++ [ev], fails (w ++ [ev]))

/-- The recording engine: its state is the history of the calls made so far, and an
arbitrary oracle decides which fallible call fails. Every deterministic engine whose
failures depend on the calls it has received is of this form. -/
def recorder (fails : List (Event α) → Option Err) : Engine (List (Event α)) α where
  NewTapeMachine := fun w => w ++ [.newTapeMachine]
  NewVanillaSolver := fun b r w => w ++ [.newVanillaSolver b r]
  NewTensorExpected := fun w => w ++ [.newTensorExpected]
  SoftMax := record fails .softMax
  Log := record fails .log
  HadamardProd := record fails .hadamardProd
  Sum := record fails .sum
  Mean := record fails .mean
  Neg := record fails .neg
  Grad := record fails .grad
  ReadCost := fun w => w ++ [.readCost]
  LetInput := fun d => record fails (.letInput d)
  LetExpected := fun d => record fails (.letExpected d)
  RunAll := record fails .runAll
  Step := record fails .step
  Reset := fun w => w ++ [.reset]
  LogProgress := fun i w => w ++ [.logProgress i]
  OutputValue := fun _ => .other
  Argmax := fun _ _ => .error "not called"

/-- A history in which every fallible call succeeded. -/
inductive Run (fails : List (Event α) → Option Err) : List (Event α) → Prop where
  | nil : Run fails []
  | snoc (log : List (Event α)) (ev : Event α) : Run fails log →
      (ev.isFallible = true → fails (log ++ [ev]) = none) → Run fails (log ++ [ev])

/-- The history of `train` up to its last `gorgonia.Must`: the solver, the expected node and
the six graph operations of `RegistryCalcGradNode`. -/
def mustLog (ops : Float64Ops α) (batchSize : Int) : List (Event α) :=
  [.newVanillaSolver (ops.ofInt batchSize) (ops.const 1), .newTensorExpected, .softMax, .log,
    .hadamardProd, .sum, .mean, .neg]

/-- The history of `train` up to the call of `gorgonia.Grad`. -/
def gradLog (ops : Float64Ops α) (batchSize : Int) : List (Event α) :=
  mustLog ops batchSize ++ [.grad]

/-- The history of `train` when it enters its loop: the solver, the complete gradient
registration and the tape machine. -/
def startLog (ops : Float64Ops α) (batchSize : Int) : List (Event α) :=
  gradLog ops batchSize ++ [.readCost, .newTapeMachine]

/-- The four fallible calls of an epoch, in their order: injection of the input matrix,
injection of the label matrix, run, solver update. -/
def epochCalls (input expected : Dense α) : List (Event α) :=
  [.letInput input, .letExpected expected, .runAll, .step]

/-- The calls of the complete epoch `i`: the four fallible calls, the reset, and the
progress line when `i` is a multiple of 10000. -/
def epochEvents (input expected : Dense α) (i : Int) : List (Event α) :=
  epochCalls input expected ++ [.reset] ++ (if i % 10000 = 0 then [.logProgress i] else [])

/-- The calls of the complete epochs `0, ..., k-1`. -/
def epochsLog (input expected : Dense α) : Nat → List (Event α)
  | 0 => []
  | k + 1 => epochsLog input expected k ++ epochEvents input expected (k : Int)

/-- An epoch entered with history `log` was left by a failing call: the history `x.1` is
`log` followed by a non-empty initial part of the four fallible calls of the epoch, every
call before the last one succeeded, and the last one failed with the error `x.2`. -/
def EpochFail (fails : List (Event α) → Option Err) (input expected : Dense α)
    (log : List (Event α)) (x : List (Event α) × Err) : Prop :=
  ∃ part ev, x.1 = log ++ part ++ [ev] ∧ (part ++ [ev]) <+: epochCalls input expected ∧
    Run fails (log ++ part) ∧ fails x.1 = some x.2

/-- The runs of the graph. -/
def Event.isRunAll : Event α → Bool
  | .runAll => true
  | _ => false

/-- An oracle that makes the run of the second epoch fail: a call fails when the history,
this call included, holds exactly two runs. -/
def failSecondRun (log : List (Event ℚ)) : Option Err :=
  if log.countP Event.isRunAll = 2 then some "run failed" else none

/-- An oracle that makes `gorgonia.SoftMax` fail. -/
def failSoftMax (log : List (Event ℚ)) : Option Err :=
  if log.length = 3 then some "softmax failed" else none

/-! ## Theorems -/

theorem wrapInt_eq {x : Int} (h1 : -2 ^ 63 ≤ x) (h2 : x < 2 ^ 63) : wrapInt x = x := by
  unfold wrapInt
  omega

theorem imul_natCast (a b : Nat) (h : a * b < 2 ^ 63) :
    imul (a : Int) (b : Int) = ((a * b : Nat) : Int) := by
  unfold imul
  rw [← Int.natCast_mul]
  apply wrapInt_eq <;> omega

theorem iadd_natCast (a b : Nat) (h : a + b < 2 ^ 63) :
    iadd (a : Int) (b : Int) = ((a + b : Nat) : Int) := by
  unfold iadd
  rw [← Int.natCast_add]
  apply wrapInt_eq <;> omega

theorem iadd_natCast_one (a : Nat) (h : a + 1 < 2 ^ 63) :
    iadd (a : Int) 1 = ((a + 1 : Nat) : Int) := by
  unfold iadd
  rw [Int.natCast_add]
  apply wrapInt_eq <;> omega

theorem bind_ok {ε α β : Type} (a : α) (f : α → Except ε β) :
    (Except.ok a : Except ε α).bind f = f a := rfl

theorem bind_error {ε α β : Type} (e : ε) (f : α → Except ε β) :
    (Except.error e : Except ε α).bind f = Except.error e := rfl

theorem store_natCast {α : Type} (xs : List α) (n : Nat) (v : α) (h : n < xs.length) :
    store xs (n : Int) v = .ok (xs.set n v) := by
  unfold store
  have h' : (0 : Int) ≤ (n : Int) ∧ (n : Int) < (xs.length : Int) := by omega
  simp [h']

theorem load_natCast {α : Type} (xs : List α) (n : Nat) (v : α) (h : xs[n]? = some v) :
    load xs (n : Int) = .ok v := by
  unfold load
  have h0 : (0 : Int) ≤ (n : Int) := by omega
  simp [h0, h]

theorem Heap.Fits.left_lt {mem : Heap} {n₁ n₂ : Nat} (h : mem.Fits n₁ n₂) : n₁ < 2 ^ 63 := by
  obtain ⟨h0, h1, _, _⟩ := h
  omega

theorem Heap.Fits.right_lt {mem : Heap} {n₁ n₂ : Nat} (h : mem.Fits n₁ n₂) : n₂ < 2 ^ 63 := by
  obtain ⟨h0, _, h2, _⟩ := h
  omega

theorem make_natCast {α : Type} (mem : Heap) (zero : α) (n : Nat)
    (hword : mem.maxAlloc < 2 ^ 64)
    (hmax : 8 * (n : Int) ≤ mem.maxAlloc) (hfree : 8 * (n : Int) ≤ mem.freeBytes) :
    make mem zero (n : Int) =
      .ok (List.replicate n zero, ⟨mem.maxAlloc, mem.freeBytes - 8 * (n : Int)⟩) := by
  unfold make
  have h1 : ¬ ((n : Int) < 0 ∨ 2 ^ 64 ≤ 8 * (n : Int) ∨ mem.maxAlloc < 8 * (n : Int)) := by
    omega
  have h2 : ¬ (mem.freeBytes < 8 * (n : Int)) := by omega
  rw [if_neg h1, if_neg h2, Int.toNat_ofNat]

theorem make_ok {α : Type} (mem : Heap) (zero : α) (n : Int) (r : List α × Heap)
    (h : make mem zero n = .ok r) : r.1 = List.replicate n.toNat zero := by
  unfold make at h
  split at h
  · cases h
  · split at h
    · cases h
    · cases h
      rfl

theorem tensorNew_natCast {α : Type} (r c : Nat) (xs : List α) (h : xs.length = r * c) :
    tensorNew (r : Int) (c : Int) xs = .ok ⟨[(r : Int), (c : Int)], xs⟩ := by
  unfold tensorNew
  have h1 : (0 : Int) ≤ (r : Int) := by omega
  have h2 : (0 : Int) ≤ (c : Int) := by omega
  have h3 : (r : Int) * (c : Int) = (xs.length : Int) := by
    rw [h]; push_cast; rfl
  simp [h1, h2, h3]

/-- Hoare rule for `forLoop`: an invariant kept by every iteration holds at the end,
and the loop returns. -/
theorem forLoop_inv {ε st : Type} (body : Int → st → Except ε st) (Inv : Nat → st → Prop)
    (n : Nat)
    (hstep : ∀ k s, k < n → Inv k s → ∃ s', body (k : Int) s = .ok s' ∧ Inv (k + 1) s') :
    ∀ (m k : Nat) (s : st), k + m = n → Inv k s →
      ∃ s', forLoop body m (k : Int) s = .ok s' ∧ Inv n s' := by
  intro m
  induction m with
  | zero =>
    intro k s hk hinv
    have : k = n := by omega
    subst this
    exact ⟨s, rfl, hinv⟩
  | succ m ih =>
    intro k s hk hinv
    obtain ⟨s', hb, hinv'⟩ := hstep k s (by omega) hinv
    obtain ⟨s'', hl, hfin⟩ := ih (k + 1) s' (by omega) hinv'
    refine ⟨s'', ?_, hfin⟩
    rw [forLoop, hb, bind_ok]
    have : ((k : Int) + 1) = ((k + 1 : Nat) : Int) := by push_cast; rfl
    rw [this]
    exact hl

theorem cell_unique {C r c r' c' : Nat} (hc : c < C) (hc' : c' < C)
    (h : r * C + c = r' * C + c') : r = r' ∧ c = c' := by
  have hC : 0 < C := by omega
  have h1 : (r * C + c) / C = r := by
    rw [Nat.add_comm, Nat.add_mul_div_right _ _ hC, Nat.div_eq_of_lt hc, Nat.zero_add]
  have h2 : (r' * C + c') / C = r' := by
    rw [Nat.add_comm, Nat.add_mul_div_right _ _ hC, Nat.div_eq_of_lt hc', Nat.zero_add]
  have hr : r = r' := by rw [← h1, ← h2, h]
  subst hr
  exact ⟨rfl, by omega⟩

theorem trainingBody_step (ops : Float64Ops α) (rng : Rand σ α) (D C S : Nat) (s : σ)
    (hD : 2 ≤ D) (hin : S * C * D < 2 ^ 63) (hout : S * C * C < 2 ^ 63)
    (j i k : Nat) (hj : j < C) (hi : i < S) (hk : k = S * j + i)
    (st : List α × List α × σ) (hinv : TrainInv ops rng D C S s k st) :
    ∃ st', trainingBody ops rng (D : Int) (C : Int) (S : Int) (j : Int) (i : Int) st = .ok st' ∧
      TrainInv ops rng D C S s (k + 1) st' := by
  have hC : 0 < C := by omega
  have hS : 0 < S := by omega
  have hkN : k < S * C := by
    have h1 : S * (j + 1) ≤ S * C := Nat.mul_le_mul_left S (by omega)
    rw [Nat.mul_succ] at h1
    omega
  have hkD : k * D + D ≤ S * C * D := by
    have h1 : (k + 1) * D ≤ S * C * D := Nat.mul_le_mul_right D (by omega)
    rw [Nat.succ_mul] at h1
    exact h1
  have hkC : k * C + C ≤ S * C * C := by
    have h1 : (k + 1) * C ≤ S * C * C := Nat.mul_le_mul_right C (by omega)
    rw [Nat.succ_mul] at h1
    exact h1
  have hNle : S * C ≤ S * C * D := Nat.le_mul_of_pos_right _ (by omega)
  have hdiv : k / S = j := by
    rw [hk, Nat.mul_add_div hS, Nat.div_eq_of_lt hi, Nat.add_zero]
  have hmod : k % S = i := by
    rw [hk, Nat.mul_add_mod, Nat.mod_eq_of_lt hi]
  have b1 : S * j < 2 ^ 63 := by omega
  have b2 : S * j + i < 2 ^ 63 := by omega
  have b3 : k * D < 2 ^ 63 := by omega
  have b4 : k * D + 1 < 2 ^ 63 := by omega
  have b5 : k * C < 2 ^ 63 := by omega
  have b6 : k * C + j < 2 ^ 63 := by omega
  have l1 : k * D < st.1.length := by rw [hinv.lenIn]; omega
  have l2 : ∀ v : α, k * D + 1 < (st.1.set (k * D) v).length := by
    intro v; rw [List.length_set, hinv.lenIn]; omega
  have l3 : k * C + j < st.2.1.length := by rw [hinv.lenOut]; omega
  have hg : (rng.NormFloat64 st.2.2).1 = gaussDraw rng s k := by
    rw [hinv.state]; rfl
  have hrun : trainingBody ops rng (D : Int) (C : Int) (S : Int) (j : Int) (i : Int) st =
      .ok ((st.1.set (k * D) (pointX ops (j : Int) (rateOf ops (i : Int) (S : Int))
              (gaussDraw rng s k))).set (k * D + 1)
            (pointY ops (j : Int) (rateOf ops (i : Int) (S : Int)) (gaussDraw rng s k)),
          st.2.1.set (k * C + j) (ops.const 1), gaussState rng s (k + 1)) := by
    unfold trainingBody
    rewrite [imul_natCast S j b1, iadd_natCast (S * j) i b2, ← hk, imul_natCast k D b3,
      iadd_natCast_one (k * D) b4, imul_natCast k C b5, iadd_natCast (k * C) j b6]
    rewrite [store_natCast _ _ _ l1, bind_ok, store_natCast _ _ _ (l2 _), bind_ok,
      store_natCast _ _ _ l3, bind_ok, hg, hinv.state]
    rfl
  refine ⟨_, hrun, ?_⟩
  constructor
  · simp [hinv.lenIn]
  · simp [hinv.lenOut]
  · rfl
  · intro r hr
    have hne1 : k * D + 1 ≠ r * D := by
      rcases Nat.lt_or_ge r k with h | h
      · have h1 : (r + 1) * D ≤ k * D := Nat.mul_le_mul_right D (by omega)
        rw [Nat.succ_mul] at h1
        omega
      · have h1 : r = k := by omega
        subst h1
        omega
    simp only [List.getElem?_set_ne hne1]
    rcases Nat.lt_or_ge r k with h | h
    · have hne0 : k * D ≠ r * D := by
        have h1 : (r + 1) * D ≤ k * D := Nat.mul_le_mul_right D (by omega)
        rw [Nat.succ_mul] at h1
        omega
      rw [List.getElem?_set_ne hne0]
      exact hinv.rowsX r h
    · have h1 : r = k := by omega
      subst h1
      rw [List.getElem?_set_self l1, hdiv, hmod]
  · intro r hr
    rcases Nat.lt_or_ge r k with h | h
    · have h1 : (r + 1) * D ≤ k * D := Nat.mul_le_mul_right D (by omega)
      rw [Nat.succ_mul] at h1
      rw [List.getElem?_set_ne (by omega), List.getElem?_set_ne (by omega)]
      exact hinv.rowsY r h
    · have h1 : r = k := by omega
      subst h1
      rw [List.getElem?_set_self (l2 _), hdiv, hmod]
  · intro r c hr hc
    by_cases hcell : k * C + j = r * C + c
    · obtain ⟨h1, h2⟩ := cell_unique hj hc hcell
      subst h1
      subst h2
      rw [List.getElem?_set_self l3]
      simp [hdiv]
    · rw [List.getElem?_set_ne hcell, hinv.labels r c hr hc]
      have hiff : (r < k + 1 ∧ c = r / S) ↔ (r < k ∧ c = r / S) := by
        constructor
        · rintro ⟨h1, h2⟩
          refine ⟨?_, h2⟩
          rcases Nat.lt_or_ge r k with h | h
          · exact h
          · exfalso
            have hrk : r = k := by omega
            subst hrk
            rw [hdiv] at h2
            subst h2
            exact hcell rfl
        · rintro ⟨h1, h2⟩
          exact ⟨by omega, h2⟩
      simp only [hiff]

theorem trainInv_init (ops : Float64Ops α) (rng : Rand σ α) (D C S : Nat) (s : σ) :
    TrainInv ops rng D C S s 0
      (List.replicate (S * C * D) (ops.const 0), List.replicate (S * C * C) (ops.const 0), s) := by
  constructor
  · simp
  · simp
  · rfl
  · intro r hr; omega
  · intro r hr; omega
  · intro r c hr hc
    have h1 : (r + 1) * C ≤ S * C * C := Nat.mul_le_mul_right C (by omega)
    rw [Nat.succ_mul] at h1
    have h2 : r * C + c < S * C * C := by omega
    simp [h2]

/-- The two nested loops of `createTrainingData` return and establish the invariant for
all `S * C` samples. -/
theorem trainingLoops_spec (ops : Float64Ops α) (rng : Rand σ α) (D C S : Nat) (s : σ)
    (hD : 2 ≤ D) (hin : S * C * D < 2 ^ 63) (hout : S * C * C < 2 ^ 63)
    (st : List α × List α × σ) (h0 : TrainInv ops rng D C S s 0 st) :
    ∃ st', forLoop (fun j st => forLoop (trainingBody ops rng (D : Int) (C : Int) (S : Int) j)
        S 0 st) C 0 st = .ok st' ∧ TrainInv ops rng D C S s (S * C) st' := by
  have outer := forLoop_inv
    (fun j st => forLoop (trainingBody ops rng (D : Int) (C : Int) (S : Int) j) S 0 st)
    (fun j st => TrainInv ops rng D C S s (S * j) st) C
    (by
      intro j st hj hinv
      have inner := forLoop_inv (trainingBody ops rng (D : Int) (C : Int) (S : Int) (j : Int))
        (fun i st => TrainInv ops rng D C S s (S * j + i) st) S
        (fun i st hi hinv =>
          trainingBody_step ops rng D C S s hD hin hout j i (S * j + i) hj hi rfl st hinv)
        S 0 st (Nat.zero_add S) hinv
      obtain ⟨st', h1, h2⟩ := inner
      exact ⟨st', h1, h2⟩)
    C 0 st (Nat.zero_add C) h0
  obtain ⟨st', h1, h2⟩ := outer
  exact ⟨st', h1, h2⟩

/-- For `dimensionNum ≥ 2` and on an allocator that can hand out the two buffers
`createTrainingData` returns, and its buffers satisfy the
loop invariant for all `S * C` samples. -/
theorem createTrainingData_spec (ops : Float64Ops α) (rng : Rand σ α) (mem : Heap)
    (D C S : Nat) (s : σ)
    (hD : 2 ≤ D) (hmem : mem.Fits (S * C * D) (S * C * C)) :
    ∃ inp out, createTrainingData ops rng mem (D : Int) (C : Int) (S : Int) s =
        .ok (⟨[((S * C : Nat) : Int), (D : Int)], inp⟩, ⟨[((S * C : Nat) : Int), (C : Int)], out⟩,
          gaussState rng s (S * C)) ∧
      TrainInv ops rng D C S s (S * C) (inp, out, gaussState rng s (S * C)) := by
  have hin : S * C * D < 2 ^ 63 := hmem.left_lt
  have hout : S * C * C < 2 ^ 63 := hmem.right_lt
  have hSC : S * C < 2 ^ 63 := by
    have : S * C ≤ S * C * D := Nat.le_mul_of_pos_right _ (by omega)
    omega
  obtain ⟨st', hl, hinv⟩ := trainingLoops_spec ops rng D C S s hD hin hout _
    (trainInv_init ops rng D C S s)
  refine ⟨st'.1, st'.2.1, ?_, ?_⟩
  · unfold createTrainingData
    rewrite [imul_natCast S C hSC, imul_natCast (S * C) D hin, imul_natCast (S * C) C hout,
      make_natCast mem _ _ hmem.1 hmem.2.1 (by have := hmem.2.2.2; omega), bind_ok,
      make_natCast ⟨mem.maxAlloc, mem.freeBytes - 8 * ((S * C * D : Nat) : Int)⟩ _ _ hmem.1
        hmem.2.2.1 (by have := hmem.2.2.2; show _ ≤ mem.freeBytes - _; omega),
      bind_ok, Int.toNat_ofNat, Int.toNat_ofNat, hl,
      bind_ok, tensorNew_natCast _ _ _ hinv.lenIn, bind_ok,
      tensorNew_natCast _ _ _ hinv.lenOut, bind_ok, hinv.state]
    rfl
  · rw [← hinv.state]
    exact hinv

theorem callIntn_pos (rng : Rand σ α) (n : Int) (s : σ) (h : 0 < n) :
    rng.callIntn n s = .ok (rng.Intn n s) := by
  unfold Rand.callIntn
  have : ¬ (n ≤ 0) := by omega
  simp [this]

theorem testBody_step (ops : Float64Ops α) (rng : Rand σ α) (D C S : Nat) (s : σ)
    (hrng : rng.IntnInRange)
    (hD : 2 ≤ D) (hin : S * C * D < 2 ^ 63) (hout : S * C * C < 2 ^ 63)
    (k : Nat) (hk : k < S * C)
    (st : List α × List α × σ) (hinv : TestInv ops rng D C S s k st) :
    ∃ st', testBody ops rng (D : Int) (C : Int) (k : Int) st = .ok st' ∧
      TestInv ops rng D C S s (k + 1) st' := by
  have hC : 0 < C := by
    rcases Nat.eq_zero_or_pos C with h | h
    · subst h; simp at hk
    · exact h
  have hCi : (0 : Int) < (C : Int) := by omega
  have hkD : k * D + D ≤ S * C * D := by
    have h1 : (k + 1) * D ≤ S * C * D := Nat.mul_le_mul_right D (by omega)
    rw [Nat.succ_mul] at h1
    exact h1
  have hkC : k * C + C ≤ S * C * C := by
    have h1 : (k + 1) * C ≤ S * C * C := Nat.mul_le_mul_right C (by omega)
    rw [Nat.succ_mul] at h1
    exact h1
  obtain ⟨j, hj⟩ : ∃ j : Nat, (j : Int) = testClass rng (C : Int) s k := by
    have := (hrng (C : Int) (testState rng (C : Int) s k) hCi).1
    exact ⟨(testClass rng (C : Int) s k).toNat, by unfold testClass; omega⟩
  have hjC : j < C := by
    have := (hrng (C : Int) (testState rng (C : Int) s k) hCi).2
    unfold testClass at hj
    omega
  have hcls : (rng.Intn (C : Int) st.2.2).1 = (j : Int) := by
    rw [hj, hinv.state]; rfl
  have b3 : k * D < 2 ^ 63 := by omega
  have b4 : k * D + 1 < 2 ^ 63 := by omega
  have b5 : k * C < 2 ^ 63 := by omega
  have b6 : k * C + j < 2 ^ 63 := by omega
  have l1 : k * D < st.1.length := by rw [hinv.lenIn]; omega
  have l2 : ∀ v : α, k * D + 1 < (st.1.set (k * D) v).length := by
    intro v; rw [List.length_set, hinv.lenIn]; omega
  have l3 : k * C + j < st.2.1.length := by rw [hinv.lenOut]; omega
  have hrun : testBody ops rng (D : Int) (C : Int) (k : Int) st =
      .ok ((st.1.set (k * D) (pointX ops (testClass rng (C : Int) s k)
              (testRate rng (C : Int) s k) (testGauss rng (C : Int) s k))).set (k * D + 1)
            (pointY ops (testClass rng (C : Int) s k) (testRate rng (C : Int) s k)
              (testGauss rng (C : Int) s k)),
          st.2.1.set (k * C + j) (ops.const 1), testState rng (C : Int) s (k + 1)) := by
    unfold testBody
    rewrite [callIntn_pos rng (C : Int) st.2.2 hCi, bind_ok, hcls, imul_natCast k D b3,
      iadd_natCast_one (k * D) b4, imul_natCast k C b5, iadd_natCast (k * C) j b6]
    rewrite [store_natCast _ _ _ l1, bind_ok, store_natCast _ _ _ (l2 _), bind_ok,
      store_natCast _ _ _ l3, bind_ok, hj, hinv.state]
    rfl
  refine ⟨_, hrun, ?_⟩
  constructor
  · simp [hinv.lenIn]
  · simp [hinv.lenOut]
  · rfl
  · intro r hr
    have hne1 : k * D + 1 ≠ r * D := by
      rcases Nat.lt_or_ge r k with h | h
      · have h1 : (r + 1) * D ≤ k * D := Nat.mul_le_mul_right D (by omega)
        rw [Nat.succ_mul] at h1
        omega
      · have h1 : r = k := by omega
        subst h1
        omega
    simp only [List.getElem?_set_ne hne1]
    rcases Nat.lt_or_ge r k with h | h
    · have hne0 : k * D ≠ r * D := by
        have h1 : (r + 1) * D ≤ k * D := Nat.mul_le_mul_right D (by omega)
        rw [Nat.succ_mul] at h1
        omega
      rw [List.getElem?_set_ne hne0]
      exact hinv.rowsX r h
    · have h1 : r = k := by omega
      subst h1
      rw [List.getElem?_set_self l1]
  · intro r hr
    rcases Nat.lt_or_ge r k with h | h
    · have h1 : (r + 1) * D ≤ k * D := Nat.mul_le_mul_right D (by omega)
      rw [Nat.succ_mul] at h1
      rw [List.getElem?_set_ne (by omega), List.getElem?_set_ne (by omega)]
      exact hinv.rowsY r h
    · have h1 : r = k := by omega
      subst h1
      rw [List.getElem?_set_self (l2 _)]
  · intro r c hr hc
    by_cases hcell : k * C + j = r * C + c
    · obtain ⟨h1, h2⟩ := cell_unique hjC hc hcell
      subst h1
      subst h2
      rw [List.getElem?_set_self l3]
      simp [hj]
    · rw [List.getElem?_set_ne hcell, hinv.labels r c hr hc]
      have hiff : (r < k + 1 ∧ (c : Int) = testClass rng (C : Int) s r) ↔
          (r < k ∧ (c : Int) = testClass rng (C : Int) s r) := by
        constructor
        · rintro ⟨h1, h2⟩
          refine ⟨?_, h2⟩
          rcases Nat.lt_or_ge r k with h | h
          · exact h
          · exfalso
            have hrk : r = k := by omega
            subst hrk
            rw [← hj] at h2
            have hcj : c = j := by omega
            subst hcj
            exact hcell rfl
        · rintro ⟨h1, h2⟩
          exact ⟨by omega, h2⟩
      simp only [hiff]

theorem testInv_init (ops : Float64Ops α) (rng : Rand σ α) (D C S : Nat) (s : σ) :
    TestInv ops rng D C S s 0
      (List.replicate (S * C * D) (ops.const 0), List.replicate (S * C * C) (ops.const 0), s) := by
  constructor
  · simp
  · simp
  · rfl
  · intro r hr; omega
  · intro r hr; omega
  · intro r c hr hc
    have h1 : (r + 1) * C ≤ S * C * C := Nat.mul_le_mul_right C (by omega)
    rw [Nat.succ_mul] at h1
    have h2 : r * C + c < S * C * C := by omega
    simp [h2]

/-- For `dimensionNum ≥ 2`, on an allocator that can hand out the two buffers and under the
`Intn` contract `createTestData` returns, and its
buffers satisfy the loop invariant for all `S * C` rows. -/
theorem createTestData_spec (ops : Float64Ops α) (rng : Rand σ α) (mem : Heap)
    (D C S : Nat) (s : σ) (hrng : rng.IntnInRange)
    (hD : 2 ≤ D) (hmem : mem.Fits (S * C * D) (S * C * C)) :
    ∃ inp out, createTestData ops rng mem (D : Int) (C : Int) (S : Int) s =
        .ok (⟨[((S * C : Nat) : Int), (D : Int)], inp⟩, ⟨[((S * C : Nat) : Int), (C : Int)], out⟩,
          testState rng (C : Int) s (S * C)) ∧
      TestInv ops rng D C S s (S * C) (inp, out, testState rng (C : Int) s (S * C)) := by
  have hin : S * C * D < 2 ^ 63 := hmem.left_lt
  have hout : S * C * C < 2 ^ 63 := hmem.right_lt
  have hSC : S * C < 2 ^ 63 := by
    have : S * C ≤ S * C * D := Nat.le_mul_of_pos_right _ (by omega)
    omega
  obtain ⟨st', hl, hinv⟩ := forLoop_inv (testBody ops rng (D : Int) (C : Int))
    (fun k st => TestInv ops rng D C S s k st) (S * C)
    (fun k st hk hinv => testBody_step ops rng D C S s hrng hD hin hout k hk st hinv)
    (S * C) 0 _ (Nat.zero_add _) (testInv_init ops rng D C S s)
  have hl0 : forLoop (testBody ops rng (D : Int) (C : Int)) (S * C) 0
      (List.replicate (S * C * D) (ops.const 0), List.replicate (S * C * C) (ops.const 0), s) =
      .ok st' := hl
  refine ⟨st'.1, st'.2.1, ?_, ?_⟩
  · unfold createTestData
    rewrite [imul_natCast S C hSC, imul_natCast (S * C) D hin, imul_natCast (S * C) C hout,
      make_natCast mem _ _ hmem.1 hmem.2.1 (by have := hmem.2.2.2; omega), bind_ok,
      make_natCast ⟨mem.maxAlloc, mem.freeBytes - 8 * ((S * C * D : Nat) : Int)⟩ _ _ hmem.1
        hmem.2.2.1 (by have := hmem.2.2.2; show _ ≤ mem.freeBytes - _; omega),
      bind_ok, Int.toNat_ofNat, hl0,
      bind_ok, tensorNew_natCast _ _ _ hinv.lenIn, bind_ok,
      tensorNew_natCast _ _ _ hinv.lenOut, bind_ok, hinv.state]
    rfl
  · rw [← hinv.state]
    exact hinv

/-- C1 (counterexample): with `dimensionNum = classNum = sampleNum = 1` the second
coordinate is written past the end of the one-element input buffer; with
`dimensionNum = 2, classNum = 3, sampleNum = 2^62` the buffer length wraps to a negative
`int`; and with `dimensionNum = 2, classNum = 1, sampleNum = 2^61` the input buffer of `2^62`
elements exceeds the largest allocation of the runtime. In all three cases
`createTrainingData` panics instead of returning matrices. -/
theorem C1_counterexample :
    createTrainingData ratOps counterRand sampleHeap 1 1 1 0 = .error .indexOutOfRange ∧
    createTrainingData ratOps counterRand sampleHeap 2 3 (2 ^ 62) 0 =
      .error .makeLenOutOfRange ∧
    createTrainingData ratOps counterRand sampleHeap 2 1 (2 ^ 61) 0 =
      .error .makeLenOutOfRange := by
  refine ⟨?_, ?_, ?_⟩
  · rfl
  · rfl
  · rfl

/-- C1 (amended): for `dimensionNum ≥ 2`, positive `classNum` and `sampleNum`, every
allocator that can hand out the two buffers of `sampleNum*classNum*dimensionNum` and
`sampleNum*classNum*classNum` elements (neither exceeds `maxAlloc` bytes, which is below
`2^64`, and together they fit in the free memory) and every generator,
`createTrainingData` returns an input matrix of shape
`(sampleNum*classNum, dimensionNum)` and a label matrix of shape
`(sampleNum*classNum, classNum)` whose every row is one-hot. -/
theorem C1_createTrainingData_shapes (ops : Float64Ops α) (rng : Rand σ α) (mem : Heap)
    (D C S : Nat) (s : σ)
    (h01 : ops.const 0 ≠ ops.const 1)
    (hD : 2 ≤ D) (_hC : 0 < C) (hS : 0 < S)
    (hmem : mem.Fits (S * C * D) (S * C * C)) :
    ∃ input label s', createTrainingData ops rng mem (D : Int) (C : Int) (S : Int) s =
        .ok (input, label, s') ∧
      input.shape = [((S * C : Nat) : Int), (D : Int)] ∧ input.data.length = S * C * D ∧
      label.shape = [((S * C : Nat) : Int), (C : Int)] ∧ label.data.length = S * C * C ∧
      ∀ r, r < S * C → OneHotRow ops label.data C r := by
  obtain ⟨inp, out, hrun, hinv⟩ := createTrainingData_spec ops rng mem D C S s hD hmem
  refine ⟨_, _, _, hrun, rfl, hinv.lenIn, rfl, hinv.lenOut, ?_⟩
  intro r hr
  have hrS : r / S < C := by
    rw [Nat.div_lt_iff_lt_mul hS, Nat.mul_comm]
    exact hr
  refine ⟨r / S, hrS, ?_, ?_⟩
  · have := hinv.labels r (r / S) hr hrS
    simpa [entry, hr] using this
  · intro c' hc' hne
    have := hinv.labels r c' hr hc'
    simp only [entry]
    simp only [hne, and_false, if_false] at this
    rw [this]
    refine ⟨rfl, ?_⟩
    intro h
    exact h01 (Option.some.inj h)

/-- C1 (amended), instance: two dimensions, three classes, one hundred samples per class,
on the allocator of linux/amd64 with one GiB free. -/
theorem C1_createTrainingData_shapes_witness :
    ∃ input label s', createTrainingData ratOps counterRand sampleHeap ((2 : Nat) : Int)
        ((3 : Nat) : Int) ((100 : Nat) : Int) 0 = .ok (input, label, s') ∧
      input.shape = [((100 * 3 : Nat) : Int), ((2 : Nat) : Int)] ∧
      input.data.length = 100 * 3 * 2 ∧
      label.shape = [((100 * 3 : Nat) : Int), ((3 : Nat) : Int)] ∧
      label.data.length = 100 * 3 * 3 ∧
      ∀ r, r < 100 * 3 → OneHotRow ratOps label.data 3 r :=
  C1_createTrainingData_shapes ratOps counterRand sampleHeap 2 3 100 0 (by simp [ratOps])
    (by decide) (by decide) (by decide) (by norm_num [Heap.Fits, sampleHeap])

/-- C2: in training mode, for class `j < classNum` and index `i < sampleNum`, row
`sampleNum*j + i` of the input matrix holds `(rate*sin(theta), rate*cos(theta))` with
`rate = float64(i)/float64(sampleNum)` and
`theta = float64(j)*4.0 + 4.0*rate + g*0.2`, where `g` is Gaussian draw number
`sampleNum*j + i` of the generator (one draw per sample, `j`-major and `i`-minor), the label
row has its `1` in column `j`, and the generator is left after `sampleNum*classNum` draws.
Stated for `dimensionNum ≥ 2` and an allocator that can hand out the two buffers, where the
call returns. -/
theorem C2_createTrainingData_rows (ops : Float64Ops α) (rng : Rand σ α) (mem : Heap)
    (D C S : Nat) (s : σ)
    (hD : 2 ≤ D) (hmem : mem.Fits (S * C * D) (S * C * C))
    (j i : Nat) (hj : j < C) (hi : i < S) :
    ∃ input label, createTrainingData ops rng mem (D : Int) (C : Int) (S : Int) s =
        .ok (input, label, gaussState rng s (S * C)) ∧
      entry input.data D (S * j + i) 0 =
        some (ops.mul (ops.div (ops.ofInt i) (ops.ofInt S))
          (ops.sin (ops.add (ops.add (ops.mul (ops.ofInt j) (ops.const 4.0))
            (ops.mul (ops.const 4.0) (ops.div (ops.ofInt i) (ops.ofInt S))))
            (ops.mul (gaussDraw rng s (S * j + i)) (ops.const 0.2))))) ∧
      entry input.data D (S * j + i) 1 =
        some (ops.mul (ops.div (ops.ofInt i) (ops.ofInt S))
          (ops.cos (ops.add (ops.add (ops.mul (ops.ofInt j) (ops.const 4.0))
            (ops.mul (ops.const 4.0) (ops.div (ops.ofInt i) (ops.ofInt S))))
            (ops.mul (gaussDraw rng s (S * j + i)) (ops.const 0.2))))) ∧
      entry label.data C (S * j + i) j = some (ops.const 1) := by
  obtain ⟨inp, out, hrun, hinv⟩ := createTrainingData_spec ops rng mem D C S s hD hmem
  have hS : 0 < S := by omega
  have hk : S * j + i < S * C := by
    have h1 : S * (j + 1) ≤ S * C := Nat.mul_le_mul_left S (by omega)
    rw [Nat.mul_succ] at h1
    omega
  have hdiv : (S * j + i) / S = j := by
    rw [Nat.mul_add_div hS, Nat.div_eq_of_lt hi, Nat.add_zero]
  have hmod : (S * j + i) % S = i := by
    rw [Nat.mul_add_mod, Nat.mod_eq_of_lt hi]
  refine ⟨_, _, hrun, ?_, ?_, ?_⟩
  · have := hinv.rowsX (S * j + i) hk
    rw [hdiv, hmod] at this
    simpa [entry, pointX, rateOf, thetaOf] using this
  · have := hinv.rowsY (S * j + i) hk
    rw [hdiv, hmod] at this
    simpa [entry, pointY, rateOf, thetaOf] using this
  · have := hinv.labels (S * j + i) j hk hj
    rw [hdiv] at this
    simpa [entry, hk] using this

/-- C2, instance: class 1 and index 1 with two dimensions, two classes, two samples. -/
theorem C2_createTrainingData_rows_witness :
    ∃ input label, createTrainingData ratOps counterRand sampleHeap ((2 : Nat) : Int)
        ((2 : Nat) : Int) ((2 : Nat) : Int) 0 =
          .ok (input, label, gaussState counterRand 0 (2 * 2)) ∧
      entry input.data 2 (2 * 1 + 1) 0 =
        some (ratOps.mul (ratOps.div (ratOps.ofInt (1 : Nat)) (ratOps.ofInt (2 : Nat)))
          (ratOps.sin (ratOps.add (ratOps.add (ratOps.mul (ratOps.ofInt (1 : Nat))
            (ratOps.const 4.0))
            (ratOps.mul (ratOps.const 4.0) (ratOps.div (ratOps.ofInt (1 : Nat))
              (ratOps.ofInt (2 : Nat)))))
            (ratOps.mul (gaussDraw counterRand 0 (2 * 1 + 1)) (ratOps.const 0.2))))) ∧
      entry input.data 2 (2 * 1 + 1) 1 =
        some (ratOps.mul (ratOps.div (ratOps.ofInt (1 : Nat)) (ratOps.ofInt (2 : Nat)))
          (ratOps.cos (ratOps.add (ratOps.add (ratOps.mul (ratOps.ofInt (1 : Nat))
            (ratOps.const 4.0))
            (ratOps.mul (ratOps.const 4.0) (ratOps.div (ratOps.ofInt (1 : Nat))
              (ratOps.ofInt (2 : Nat)))))
            (ratOps.mul (gaussDraw counterRand 0 (2 * 1 + 1)) (ratOps.const 0.2))))) ∧
      entry label.data 2 (2 * 1 + 1) 1 = some (ratOps.const 1) :=
  C2_createTrainingData_rows ratOps counterRand sampleHeap 2 2 2 0 (by decide)
    (by norm_num [Heap.Fits, sampleHeap]) 1 1 (by decide) (by decide)

theorem argmaxFrom_flat (lt : α → α → Bool) (zero v : α) (hv : lt v zero = false) :
    ∀ (l : List α) (i b : Nat), (∀ n, n < l.length → l[n]? = some zero) →
      argmaxFrom lt l i b v = b := by
  intro l
  induction l with
  | nil => intro i b _; rfl
  | cons x xs ih =>
    intro i b h
    have hx : x = zero := by
      have := h 0 (by simp)
      simpa using this
    subst hx
    simp only [argmaxFrom, hv, Bool.false_eq_true, if_false]
    apply ih
    intro n hn
    have := h (n + 1) (by simpa using hn)
    simpa using this

theorem argmaxFrom_hit (lt : α → α → Bool) (zero one : α)
    (h00 : lt zero zero = false) (h01 : lt zero one = true) (h10 : lt one zero = false) :
    ∀ (l : List α) (p i b : Nat), p < l.length →
      (∀ n, n < l.length → l[n]? = some (if n = p then one else zero)) →
      argmaxFrom lt l i b zero = i + p := by
  intro l
  induction l with
  | nil => intro p i b hp _; simp at hp
  | cons x xs ih =>
    intro p i b hp h
    cases p with
    | zero =>
      have hx : x = one := by
        have := h 0 (by simp)
        simpa using this
      subst hx
      simp only [argmaxFrom, h01, if_true]
      have := argmaxFrom_flat lt zero x h10 xs (i + 1) i (by
        intro n hn
        have := h (n + 1) (by simpa using hn)
        simpa using this)
      simpa using this
    | succ p =>
      have hx : x = zero := by
        have := h 0 (by simp)
        simpa using this
      subst hx
      simp only [argmaxFrom, h00, Bool.false_eq_true, if_false]
      have := ih p (i + 1) b (by simpa using hp) (by
        intro n hn
        have := h (n + 1) (by simpa using hn)
        simpa using this)
      rw [this]
      omega

/-- The arg-max of a one-hot row is the position of its `1`. -/
theorem argmaxRow_oneHot (lt : α → α → Bool) (zero one : α)
    (h00 : lt zero zero = false) (h01 : lt zero one = true) (h10 : lt one zero = false)
    (l : List α) (p : Nat) (hp : p < l.length)
    (h : ∀ n, n < l.length → l[n]? = some (if n = p then one else zero)) :
    argmaxRow lt l = some p := by
  cases l with
  | nil => simp at hp
  | cons x xs =>
    cases p with
    | zero =>
      have hx : x = one := by
        have := h 0 (by simp)
        simpa using this
      subst hx
      simp only [argmaxRow]
      rw [argmaxFrom_flat lt zero x h10 xs 1 0 (by
        intro n hn
        have := h (n + 1) (by simpa using hn)
        simpa using this)]
    | succ p =>
      have hx : x = zero := by
        have := h 0 (by simp)
        simpa using this
      subst hx
      simp only [argmaxRow]
      rw [argmaxFrom_hit lt x one h00 h01 h10 xs p 1 0 (by simpa using hp) (by
        intro n hn
        have := h (n + 1) (by simpa using hn)
        simpa using this)]
      congr 1
      omega

theorem rowOf_length (xs : List α) (C r : Nat) (h : r * C + C ≤ xs.length) :
    (rowOf xs C r).length = C := by
  simp only [rowOf, List.length_take, List.length_drop]
  omega

theorem rowOf_getElem? (xs : List α) (C r n : Nat) (hn : n < C) :
    (rowOf xs C r)[n]? = xs[r * C + n]? := by
  simp only [rowOf]
  rw [List.getElem?_take_of_lt hn, List.getElem?_drop]

/-- C3 (counterexample): with `dimensionNum = 2, classNum = 3, sampleNum = 2^62` the
buffer length `sampleNum*classNum*dimensionNum` wraps to a negative `int` and
`createTestData` panics in `make`; with `dimensionNum = 2, classNum = 1, sampleNum = 2^61`
the input buffer of `2^62` elements exceeds the largest allocation of the runtime and `make`
panics again; with `dimensionNum = classNum = sampleNum = 1` the function panics on the write
of the second coordinate. No label row is returned. -/
theorem C3_counterexample :
    createTestData ratOps counterRand sampleHeap 2 3 (2 ^ 62) 0 = .error .makeLenOutOfRange ∧
    createTestData ratOps counterRand sampleHeap 2 1 (2 ^ 61) 0 = .error .makeLenOutOfRange ∧
    createTestData ratOps counterRand sampleHeap 1 1 1 0 = .error .indexOutOfRange := by
  refine ⟨?_, ?_, ?_⟩
  · rfl
  · rfl
  · rfl

/-- C3 (amended): in test mode, for `dimensionNum ≥ 2`, positive `classNum` and
`sampleNum`, every allocator that can hand out the two buffers (neither exceeds `maxAlloc`
bytes, which is below `2^64`, and together they fit in the free memory), and every generator
whose `Intn` honours its range contract, `createTestData` returns `sampleNum*classNum` rows; every label row is
one-hot, its row-wise arg-max lies in `[0, classNum)` and is the class drawn for that row,
and the input row at the same index is the point computed from that class and the rate and
Gaussian value drawn for that row. -/
theorem C3_createTestData_rows (ops : Float64Ops α) (rng : Rand σ α) (mem : Heap)
    (lt : α → α → Bool) (D C S : Nat) (s : σ) (hrng : rng.IntnInRange)
    (h01 : ops.const 0 ≠ ops.const 1)
    (hlt00 : lt (ops.const 0) (ops.const 0) = false)
    (hlt01 : lt (ops.const 0) (ops.const 1) = true)
    (hlt10 : lt (ops.const 1) (ops.const 0) = false)
    (hD : 2 ≤ D) (hC : 0 < C) (_hS : 0 < S)
    (hmem : mem.Fits (S * C * D) (S * C * C)) :
    ∃ input label s', createTestData ops rng mem (D : Int) (C : Int) (S : Int) s =
        .ok (input, label, s') ∧
      input.shape = [((S * C : Nat) : Int), (D : Int)] ∧
      label.shape = [((S * C : Nat) : Int), (C : Int)] ∧
      ∀ r, r < S * C →
        OneHotRow ops label.data C r ∧
        ∃ c : Nat, argmaxRow lt (rowOf label.data C r) = some c ∧ c < C ∧
          (c : Int) = testClass rng (C : Int) s r ∧
          entry input.data D r 0 =
            some (pointX ops (testClass rng (C : Int) s r) (testRate rng (C : Int) s r)
              (testGauss rng (C : Int) s r)) ∧
          entry input.data D r 1 =
            some (pointY ops (testClass rng (C : Int) s r) (testRate rng (C : Int) s r)
              (testGauss rng (C : Int) s r)) := by
  obtain ⟨inp, out, hrun, hinv⟩ := createTestData_spec ops rng mem D C S s hrng hD hmem
  refine ⟨_, _, _, hrun, rfl, rfl, ?_⟩
  intro r hr
  have hCi : (0 : Int) < (C : Int) := by omega
  obtain ⟨j, hj⟩ : ∃ j : Nat, (j : Int) = testClass rng (C : Int) s r := by
    have := (hrng (C : Int) (testState rng (C : Int) s r) hCi).1
    exact ⟨(testClass rng (C : Int) s r).toNat, by unfold testClass; omega⟩
  have hjC : j < C := by
    have := (hrng (C : Int) (testState rng (C : Int) s r) hCi).2
    unfold testClass at hj
    omega
  have hlab : ∀ c, c < C →
      out[r * C + c]? = some (if c = j then ops.const 1 else ops.const 0) := by
    intro c hc
    have := hinv.labels r c hr hc
    rw [this]
    have hiff : (r < S * C ∧ (c : Int) = testClass rng (C : Int) s r) ↔ c = j := by
      rw [← hj]
      constructor
      · rintro ⟨_, h⟩
        omega
      · intro h
        exact ⟨hr, by omega⟩
    simp only [hiff]
  have hrow : r * C + C ≤ out.length := by
    have h1 : (r + 1) * C ≤ S * C * C := Nat.mul_le_mul_right C (by omega)
    rw [Nat.succ_mul] at h1
    have := hinv.lenOut
    simp only at this
    omega
  refine ⟨⟨j, hjC, ?_, ?_⟩, j, ?_, hjC, hj, ?_, ?_⟩
  · have := hlab j hjC
    simpa [entry] using this
  · intro c hc hne
    have hc0 : out[r * C + c]? = some (ops.const 0) := by
      rw [hlab c hc, if_neg hne]
    simp only [entry]
    rw [hc0]
    exact ⟨rfl, fun h => h01 (Option.some.inj h)⟩
  · apply argmaxRow_oneHot lt (ops.const 0) (ops.const 1) hlt00 hlt01 hlt10
    · rw [rowOf_length _ _ _ hrow]
      exact hjC
    · intro n hn
      rw [rowOf_length _ _ _ hrow] at hn
      rw [rowOf_getElem? _ _ _ _ hn]
      exact hlab n hn
  · have := hinv.rowsX r hr
    simpa [entry] using this
  · have := hinv.rowsY r hr
    simpa [entry] using this

theorem counterRand_intnInRange : counterRand.IntnInRange := by
  intro n s hn
  simp only [counterRand]
  exact ⟨Int.emod_nonneg _ (by omega), Int.emod_lt_of_pos _ hn⟩

/-- C3 (amended), instance: two dimensions, three classes, one hundred draws per class, with
the order of the rationals as comparison, on the allocator of linux/amd64 with one GiB
free. -/
theorem C3_createTestData_rows_witness :
    ∃ input label s', createTestData ratOps counterRand sampleHeap ((2 : Nat) : Int)
        ((3 : Nat) : Int) ((100 : Nat) : Int) 0 = .ok (input, label, s') ∧
      input.shape = [((100 * 3 : Nat) : Int), ((2 : Nat) : Int)] ∧
      label.shape = [((100 * 3 : Nat) : Int), ((3 : Nat) : Int)] ∧
      ∀ r, r < 100 * 3 →
        OneHotRow ratOps label.data 3 r ∧
        ∃ c : Nat, argmaxRow (fun a b : ℚ => decide (a < b)) (rowOf label.data 3 r) = some c ∧
          c < 3 ∧
          (c : Int) = testClass counterRand ((3 : Nat) : Int) 0 r ∧
          entry input.data 2 r 0 =
            some (pointX ratOps (testClass counterRand ((3 : Nat) : Int) 0 r)
              (testRate counterRand ((3 : Nat) : Int) 0 r)
              (testGauss counterRand ((3 : Nat) : Int) 0 r)) ∧
          entry input.data 2 r 1 =
            some (pointY ratOps (testClass counterRand ((3 : Nat) : Int) 0 r)
              (testRate counterRand ((3 : Nat) : Int) 0 r)
              (testGauss counterRand ((3 : Nat) : Int) 0 r)) :=
  C3_createTestData_rows ratOps counterRand sampleHeap (fun a b : ℚ => decide (a < b)) 2 3 100 0
    counterRand_intnInRange (by simp [ratOps]) (by simp [ratOps]) (by simp [ratOps])
    (by simp [ratOps]) (by decide) (by decide) (by decide)
    (by norm_num [Heap.Fits, sampleHeap])

theorem point_norm_sq (cls : Int) (rate g : ℝ) :
    pointX realOps cls rate g ^ 2 + pointY realOps cls rate g ^ 2 = rate ^ 2 := by
  simp only [pointX, pointY, realOps]
  rw [mul_pow, mul_pow, ← mul_add, Real.sin_sq_add_cos_sq, mul_one]

theorem sq_lt_one_of_unit {x : ℝ} (h0 : 0 ≤ x) (h1 : x < 1) : x ^ 2 < 1 := by
  nlinarith

/-- C10: over the reals and for `dimensionNum = 2`, every input row `(x, y)` of
`createTrainingData` satisfies `x^2 + y^2 = (i/sampleNum)^2 < 1` whatever the Gaussian
draws are, and every input row of `createTestData` satisfies `x^2 + y^2 = rate^2 < 1` for
its uniform draw `rate` in `[0, 1)`. Stated for an allocator that can hand out the two
buffers, where both calls return. -/
theorem C10_points_in_unit_disc (rng : Rand σ ℝ) (mem : Heap) (C S : Nat) (s : σ)
    (hrng : rng.IntnInRange)
    (hunif : ∀ t, 0 ≤ (rng.Float64 t).1 ∧ (rng.Float64 t).1 < 1)
    (hmem : mem.Fits (S * C * 2) (S * C * C)) :
    (∃ input label s', createTrainingData realOps rng mem ((2 : Nat) : Int) (C : Int) (S : Int)
        s =
        .ok (input, label, s') ∧
      ∀ j i, j < C → i < S → ∃ x y : ℝ,
        entry input.data 2 (S * j + i) 0 = some x ∧ entry input.data 2 (S * j + i) 1 = some y ∧
        x ^ 2 + y ^ 2 = ((i : ℝ) / (S : ℝ)) ^ 2 ∧ x ^ 2 + y ^ 2 < 1) ∧
    (∃ input label s', createTestData realOps rng mem ((2 : Nat) : Int) (C : Int) (S : Int) s =
        .ok (input, label, s') ∧
      ∀ r, r < S * C → ∃ x y : ℝ,
        entry input.data 2 r 0 = some x ∧ entry input.data 2 r 1 = some y ∧
        x ^ 2 + y ^ 2 = (testRate rng (C : Int) s r) ^ 2 ∧ x ^ 2 + y ^ 2 < 1) := by
  constructor
  · obtain ⟨inp, out, hrun, hinv⟩ :=
      createTrainingData_spec realOps rng mem 2 C S s (le_refl 2) hmem
    refine ⟨_, _, _, hrun, ?_⟩
    intro j i hj hi
    have hS : 0 < S := by omega
    have hk : S * j + i < S * C := by
      have h1 : S * (j + 1) ≤ S * C := Nat.mul_le_mul_left S (by omega)
      rw [Nat.mul_succ] at h1
      omega
    have hmod : (S * j + i) % S = i := by
      rw [Nat.mul_add_mod, Nat.mod_eq_of_lt hi]
    have hrate : rateOf realOps ((i : Nat) : Int) (S : Int) = (i : ℝ) / (S : ℝ) := by
      simp [rateOf, realOps]
    have hx := hinv.rowsX (S * j + i) hk
    have hy := hinv.rowsY (S * j + i) hk
    rw [hmod, hrate] at hx hy
    have hnorm := point_norm_sq (((S * j + i) / S : Nat) : Int) ((i : ℝ) / (S : ℝ))
      (gaussDraw rng s (S * j + i))
    have h0 : (0 : ℝ) ≤ (i : ℝ) / (S : ℝ) := by positivity
    have h1 : (i : ℝ) / (S : ℝ) < 1 := by
      rw [div_lt_one (by exact_mod_cast hS)]
      exact_mod_cast hi
    refine ⟨_, _, ?_, ?_, hnorm, ?_⟩
    · simpa [entry] using hx
    · simpa [entry] using hy
    · rw [hnorm]
      exact sq_lt_one_of_unit h0 h1
  · obtain ⟨inp, out, hrun, hinv⟩ :=
      createTestData_spec realOps rng mem 2 C S s hrng (le_refl 2) hmem
    refine ⟨_, _, _, hrun, ?_⟩
    intro r hr
    have hx := hinv.rowsX r hr
    have hy := hinv.rowsY r hr
    have hnorm := point_norm_sq (testClass rng (C : Int) s r) (testRate rng (C : Int) s r)
      (testGauss rng (C : Int) s r)
    have hu := hunif (rng.Intn (C : Int) (testState rng (C : Int) s r)).2
    refine ⟨_, _, ?_, ?_, hnorm, ?_⟩
    · simpa [entry] using hx
    · simpa [entry] using hy
    · rw [hnorm]
      exact sq_lt_one_of_unit hu.1 hu.2

theorem zeroRand_intnInRange : zeroRand.IntnInRange := by
  intro n s hn
  simp only [zeroRand]
  exact ⟨le_refl 0, hn⟩

/-- C10, instance: three classes of one hundred samples and the all-zero generator. -/
theorem C10_points_in_unit_disc_witness :
    (∃ input label s', createTrainingData realOps zeroRand sampleHeap ((2 : Nat) : Int)
        ((3 : Nat) : Int) ((100 : Nat) : Int) () = .ok (input, label, s') ∧
      ∀ j i, j < 3 → i < 100 → ∃ x y : ℝ,
        entry input.data 2 (100 * j + i) 0 = some x ∧
        entry input.data 2 (100 * j + i) 1 = some y ∧
        x ^ 2 + y ^ 2 = ((i : ℝ) / ((100 : Nat) : ℝ)) ^ 2 ∧ x ^ 2 + y ^ 2 < 1) ∧
    (∃ input label s', createTestData realOps zeroRand sampleHeap ((2 : Nat) : Int)
        ((3 : Nat) : Int) ((100 : Nat) : Int) () = .ok (input, label, s') ∧
      ∀ r, r < 100 * 3 → ∃ x y : ℝ,
        entry input.data 2 r 0 = some x ∧ entry input.data 2 r 1 = some y ∧
        x ^ 2 + y ^ 2 = (testRate zeroRand ((3 : Nat) : Int) () r) ^ 2 ∧ x ^ 2 + y ^ 2 < 1) :=
  C10_points_in_unit_disc zeroRand sampleHeap 3 100 () zeroRand_intnInRange
    (fun _ => ⟨le_refl 0, zero_lt_one⟩) (by norm_num [Heap.Fits, sampleHeap])

theorem gaussState_shift {σ : Type} (rng : Rand σ α) (s : σ) (k : Nat) :
    gaussState rng (rng.NormFloat64 s).2 k = gaussState rng s (k + 1) := by
  induction k with
  | zero => rfl
  | succ k ih =>
    show (rng.NormFloat64 (gaussState rng (rng.NormFloat64 s).2 k)).2 = _
    rw [ih]
    rfl

theorem gaussDraw_shift {σ : Type} (rng : Rand σ α) (s : σ) (k : Nat) :
    gaussDraw rng (rng.NormFloat64 s).2 k = gaussDraw rng s (k + 1) := by
  unfold gaussDraw
  rw [gaussState_shift]

theorem forLoop_rel {ε S₁ S₂ : Type} (b₁ : Int → S₁ → Except ε S₁) (b₂ : Int → S₂ → Except ε S₂)
    (R : S₁ → S₂ → Prop) (hb : ∀ i x y, R x y → RelRun R (b₁ i x) (b₂ i y)) :
    ∀ (n : Nat) (i : Int) (x : S₁) (y : S₂), R x y →
      RelRun R (forLoop b₁ n i x) (forLoop b₂ n i y) := by
  intro n
  induction n with
  | zero => intro i x y h; exact h
  | succ n ih =>
    intro i x y h
    have hstep := hb i x y h
    rw [forLoop, forLoop]
    generalize b₁ i x = r₁ at hstep
    generalize b₂ i y = r₂ at hstep
    cases r₁ with
    | error e₁ =>
      cases r₂ with
      | error e₂ => exact hstep
      | ok y' => exact hstep.elim
    | ok x' =>
      cases r₂ with
      | error e₂ => exact hstep.elim
      | ok y' => exact ih (i + 1) x' y' hstep

theorem trainingBody_rel (ops : Float64Ops α) (rng₁ : Rand σ₁ α) (rng₂ : Rand σ₂ α)
    (D C S j i : Int) (x : List α × List α × σ₁) (y : List α × List α × σ₂)
    (h : SameBuffers rng₁ rng₂ x y) :
    RelRun (SameBuffers rng₁ rng₂) (trainingBody ops rng₁ D C S j i x)
      (trainingBody ops rng₂ D C S j i y) := by
  obtain ⟨h1, h2, h3⟩ := h
  have hg : (rng₁.NormFloat64 x.2.2).1 = (rng₂.NormFloat64 y.2.2).1 := h3 0
  have htail : ∀ k, gaussDraw rng₁ (rng₁.NormFloat64 x.2.2).2 k =
      gaussDraw rng₂ (rng₂.NormFloat64 y.2.2).2 k := by
    intro k
    rw [gaussDraw_shift, gaussDraw_shift]
    exact h3 (k + 1)
  unfold trainingBody
  rewrite [h1, h2, hg]
  generalize store y.1 (imul (iadd (imul S j) i) D)
    (pointX ops j (rateOf ops i S) (rng₂.NormFloat64 y.2.2).1) = r1
  cases r1 with
  | error e => exact rfl
  | ok a =>
    rewrite [bind_ok, bind_ok]
    generalize store a (iadd (imul (iadd (imul S j) i) D) 1)
      (pointY ops j (rateOf ops i S) (rng₂.NormFloat64 y.2.2).1) = r2
    cases r2 with
    | error e => exact rfl
    | ok a2 =>
      rewrite [bind_ok, bind_ok]
      generalize store y.2.1 (iadd (imul (iadd (imul S j) i) C) j) (ops.const 1) = r3
      cases r3 with
      | error e => exact rfl
      | ok b => exact ⟨rfl, rfl, htail⟩

/-- The matrices and the generator state that `createTrainingData` returns do not depend on
the allocator: two runs that both return, on any two allocator states, return the same. -/
theorem createTrainingData_heap {σ : Type} (ops : Float64Ops α) (rng : Rand σ α)
    (mem mem' : Heap) (D C S : Int) (s : σ) (r r' : Dense α × Dense α × σ)
    (h : createTrainingData ops rng mem D C S s = .ok r)
    (h' : createTrainingData ops rng mem' D C S s = .ok r') : r = r' := by
  unfold createTrainingData at h h'
  generalize hm : make mem (ops.const 0) (imul (imul S C) D) = m at h
  generalize hm' : make mem' (ops.const 0) (imul (imul S C) D) = m' at h'
  cases m with
  | error e =>
    rw [bind_error] at h
    cases h
  | ok a =>
    cases m' with
    | error e =>
      rw [bind_error] at h'
      cases h'
    | ok a' =>
      rw [bind_ok] at h h'
      have ha := make_ok _ _ _ _ hm
      have ha' := make_ok _ _ _ _ hm'
      generalize hn : make a.2 (ops.const 0) (imul (imul S C) C) = n at h
      generalize hn' : make a'.2 (ops.const 0) (imul (imul S C) C) = n' at h'
      cases n with
      | error e =>
        rw [bind_error] at h
        cases h
      | ok b =>
        cases n' with
        | error e =>
          rw [bind_error] at h'
          cases h'
        | ok b' =>
          rw [bind_ok] at h h'
          have hb := make_ok _ _ _ _ hn
          have hb' := make_ok _ _ _ _ hn'
          rw [ha, hb] at h
          rw [ha', hb', h] at h'
          exact Except.ok.inj h'

/-- C4: the matrices returned by `createTrainingData` are a function of the parameters and
of the stream of Gaussian draws of the generator state only: two invocations with identical
`dimensionNum`, `classNum`, `sampleNum` whose generators deliver the same Gaussian draws (in
particular two invocations from the same generator state) return identical input and label
matrices, or panic identically, when run on the same allocator state; and on any two
allocator states, whenever both invocations return, the matrices are identical. -/
theorem C4_createTrainingData_deterministic (ops : Float64Ops α) (rng₁ : Rand σ₁ α)
    (rng₂ : Rand σ₂ α) (mem mem' : Heap) (D C S : Int) (s₁ : σ₁) (s₂ : σ₂)
    (h : ∀ k, gaussDraw rng₁ s₁ k = gaussDraw rng₂ s₂ k) :
    (createTrainingData ops rng₁ mem D C S s₁).map (fun r => (r.1, r.2.1)) =
      (createTrainingData ops rng₂ mem D C S s₂).map (fun r => (r.1, r.2.1)) ∧
    ∀ r r', createTrainingData ops rng₁ mem D C S s₁ = .ok r →
      createTrainingData ops rng₂ mem' D C S s₂ = .ok r' → (r.1, r.2.1) = (r'.1, r'.2.1) := by
  have hsame : (createTrainingData ops rng₁ mem D C S s₁).map (fun r => (r.1, r.2.1)) =
      (createTrainingData ops rng₂ mem D C S s₂).map (fun r => (r.1, r.2.1)) := by
    unfold createTrainingData
    generalize make mem (ops.const 0) (imul (imul S C) D) = m1
    cases m1 with
    | error e => rfl
    | ok inputArray =>
      rewrite [bind_ok, bind_ok]
      generalize make inputArray.2 (ops.const 0) (imul (imul S C) C) = m2
      cases m2 with
      | error e => rfl
      | ok outputArray =>
        rewrite [bind_ok, bind_ok]
        have hloops := forLoop_rel
          (fun j st => forLoop (trainingBody ops rng₁ D C S j) S.toNat 0 st)
          (fun j st => forLoop (trainingBody ops rng₂ D C S j) S.toNat 0 st)
          (SameBuffers rng₁ rng₂)
          (fun j x y hxy => forLoop_rel (trainingBody ops rng₁ D C S j)
            (trainingBody ops rng₂ D C S j) (SameBuffers rng₁ rng₂)
            (fun i x y hxy => trainingBody_rel ops rng₁ rng₂ D C S j i x y hxy)
            S.toNat 0 x y hxy)
          C.toNat 0 (inputArray.1, outputArray.1, s₁) (inputArray.1, outputArray.1, s₂)
          ⟨rfl, rfl, h⟩
        generalize forLoop (fun j st => forLoop (trainingBody ops rng₁ D C S j) S.toNat 0 st)
          C.toNat 0 (inputArray.1, outputArray.1, s₁) = l1 at hloops
        generalize forLoop (fun j st => forLoop (trainingBody ops rng₂ D C S j) S.toNat 0 st)
          C.toNat 0 (inputArray.1, outputArray.1, s₂) = l2 at hloops
        cases l1 with
        | error e₁ =>
          cases l2 with
          | error e₂ =>
            have he : e₁ = e₂ := hloops
            rw [he]
            rfl
          | ok y => exact hloops.elim
        | ok x =>
          cases l2 with
          | error e₂ => exact hloops.elim
          | ok y =>
            obtain ⟨h1, h2, _⟩ := hloops
            rewrite [bind_ok, bind_ok, h1, h2]
            generalize tensorNew (imul S C) D y.1 = t1
            cases t1 with
            | error e => rfl
            | ok input =>
              rewrite [bind_ok, bind_ok]
              generalize tensorNew (imul S C) C y.2.1 = t2
              cases t2 with
              | error e => rfl
              | ok output => rfl
  refine ⟨hsame, ?_⟩
  intro r r' hr hr'
  rw [hr] at hsame
  generalize hq : createTrainingData ops rng₂ mem D C S s₂ = q at hsame
  cases q with
  | error e => cases hsame
  | ok r'' =>
    have hproj : (r.1, r.2.1) = (r''.1, r''.2.1) := Except.ok.inj hsame
    have heq := createTrainingData_heap ops rng₂ mem mem' D C S s₂ r'' r' hq hr'
    rw [hproj, heq]

theorem gaussState_counterRand (s k : Nat) : gaussState counterRand s k = s + k := by
  induction k with
  | zero => rfl
  | succ k ih =>
    show (counterRand.NormFloat64 (gaussState counterRand s k)).2 = _
    rw [ih]
    rfl

theorem gaussState_pairRand (s : Nat × Nat) (k : Nat) :
    (gaussState pairRand s k).1 = s.1 + k := by
  induction k with
  | zero => rfl
  | succ k ih =>
    show ((pairRand.NormFloat64 (gaussState pairRand s k)).2).1 = _
    show (gaussState pairRand s k).1 + 1 = _
    rw [ih]
    rfl

theorem counterRand_pairRand_draws (k : Nat) :
    gaussDraw counterRand 0 k = gaussDraw pairRand (0, 5) k := by
  show (((gaussState counterRand 0 k) % 3 : Nat) : ℚ) - 1 =
    ((((gaussState pairRand (0, 5) k).1) % 3 : Nat) : ℚ) - 1
  rw [gaussState_counterRand, gaussState_pairRand]

/-- C4, instance: the two counter generators, which differ in state type and uniform draws
but deliver the same Gaussian draws, give the same matrices. -/
theorem C4_createTrainingData_deterministic_witness :
    (createTrainingData ratOps counterRand sampleHeap 2 3 100 0).map (fun r => (r.1, r.2.1)) =
      (createTrainingData ratOps pairRand sampleHeap 2 3 100 (0, 5)).map
        (fun r => (r.1, r.2.1)) ∧
    ∀ r r', createTrainingData ratOps counterRand sampleHeap 2 3 100 0 = .ok r →
      createTrainingData ratOps pairRand smallHeap 2 3 100 (0, 5) = .ok r' →
      (r.1, r.2.1) = (r'.1, r'.2.1) :=
  C4_createTrainingData_deterministic ratOps counterRand pairRand sampleHeap smallHeap
    2 3 100 0 (0, 5) counterRand_pairRand_draws

theorem matchCount_le (actualData expectedData : List Int) (k : Nat) :
    matchCount actualData expectedData k ≤ k := by
  induction k with
  | zero => exact Nat.le_refl 0
  | succ k ih =>
    show matchCount actualData expectedData k +
      (if actualData[k]? = expectedData[k]? then 1 else 0) ≤ k + 1
    split <;> omega

theorem compareBody_step (actualData expectedData : List Int) (n k : Nat) (c : Int)
    (hk : k < n) (hmax : n < 2 ^ 63)
    (hlenA : n ≤ actualData.length) (hlenE : n ≤ expectedData.length)
    (hc : c = ((matchCount actualData expectedData k : Nat) : Int)) :
    ∃ c', compareBody actualData expectedData (k : Int) c = .ok c' ∧
      c' = ((matchCount actualData expectedData (k + 1) : Nat) : Int) := by
  have hA : k < actualData.length := by omega
  have hE : k < expectedData.length := by omega
  have hm := matchCount_le actualData expectedData k
  have hb : matchCount actualData expectedData k + 1 < 2 ^ 63 := by omega
  have hAk : actualData[k]? = some actualData[k] := List.getElem?_eq_getElem hA
  have hEk : expectedData[k]? = some expectedData[k] := List.getElem?_eq_getElem hE
  refine ⟨if actualData[k] = expectedData[k]
      then ((matchCount actualData expectedData k + 1 : Nat) : Int)
      else ((matchCount actualData expectedData k : Nat) : Int), ?_, ?_⟩
  · unfold compareBody
    rewrite [load_natCast _ _ _ hAk, bind_ok, load_natCast _ _ _ hEk, bind_ok, hc,
      iadd_natCast_one _ hb]
    rfl
  · show (if actualData[k] = expectedData[k]
        then ((matchCount actualData expectedData k + 1 : Nat) : Int)
        else ((matchCount actualData expectedData k : Nat) : Int)) =
      ((matchCount actualData expectedData k +
        (if actualData[k]? = expectedData[k]? then 1 else 0) : Nat) : Int)
    rw [hAk, hEk]
    by_cases h : actualData[k] = expectedData[k]
    · simp [h]
    · simp [h]

theorem checkCompare_spec (ops : Float64Ops α) (testCount : Int)
    (actualData expectedData : List Int) (hmax : testCount < 2 ^ 63)
    (hlenA : testCount.toNat ≤ actualData.length)
    (hlenE : testCount.toNat ≤ expectedData.length) :
    checkCompare ops testCount actualData expectedData =
      (.ok (.reported testCount
        ((matchCount actualData expectedData testCount.toNat : Nat) : Int)
        (ops.div (ops.ofInt ((matchCount actualData expectedData testCount.toNat : Nat) : Int))
          (ops.ofInt testCount))) : Except Panic (CheckOutcome α)) := by
  have hn : testCount.toNat < 2 ^ 63 := by omega
  obtain ⟨c', hl, hc'⟩ := forLoop_inv (compareBody actualData expectedData)
    (fun k c => c = ((matchCount actualData expectedData k : Nat) : Int)) testCount.toNat
    (fun k c hk hc => compareBody_step actualData expectedData testCount.toNat k c hk hn
      hlenA hlenE hc)
    testCount.toNat 0 0 (Nat.zero_add _) rfl
  have hl0 : forLoop (compareBody actualData expectedData) testCount.toNat 0 0 = .ok c' := hl
  unfold checkCompare
  rw [hl0, bind_ok, hc']

/-- C5 (counterexample): with `classNum = 2` and `testCount = 1` the generated dataset has two
rows; for a model output equal to the label matrix the arg-max agrees on both rows, yet
`checkAccuracy` reports one correct answer out of one: only the first `testCount` rows are
compared. -/
theorem C5_counterexample :
    (createTestData ratOps counterRand sampleHeap 2 2 1 0).map (fun r => r.2.1) =
      .ok ⟨[2, 2], [1, 0, 0, 1]⟩ ∧
    denseArgmax (fun a b : ℚ => decide (a < b)) ⟨[2, 2], [1, 0, 0, 1]⟩ 1 = .ok [0, 1] ∧
    matchCount [0, 1] [0, 1] 2 = 2 ∧
    (checkAccuracy ratOps counterRand (constEngine (.tensor ⟨[2, 2], [1, 0, 0, 1]⟩)) sampleHeap
      2 2 1 () 0).map (fun r => r.1) = .ok (.reported 1 1 (ratOps.div (ratOps.ofInt 1) (ratOps.ofInt 1))) := by
  refine ⟨?_, ?_, ?_, ?_⟩
  · rfl
  · rfl
  · rfl
  · rfl

/-- C5 (amended): whenever the evaluator gets as far as the comparison (the dataset is
generated, the injection and the run succeed, the output is a tensor and both arg-max calls
succeed with at least `testCount` indices), the correct count that `checkAccuracy` reports
is the number of rows among the first `testCount` rows of the dataset on which the arg-max of
the model output equals the arg-max of the expected label, and it is reported together with
`testCount` and the ratio `count/testCount`. -/
theorem C5_checkAccuracy_count (ops : Float64Ops α) (rng : Rand σ α) (eng : Engine W α)
    (mem : Heap) (dimensionNum classNum testCount : Int) (w : W) (s s' : σ)
    (inputDense expectedDense t : Dense α) (actualData expectedData : List Int)
    (hdata : createTestData ops rng mem dimensionNum classNum testCount s =
      .ok (inputDense, expectedDense, s'))
    (hlet : (eng.LetInput inputDense (eng.NewTapeMachine w)).2 = none)
    (hrun : (eng.RunAll (eng.LetInput inputDense (eng.NewTapeMachine w)).1).2 = none)
    (hout : eng.OutputValue (eng.RunAll (eng.LetInput inputDense (eng.NewTapeMachine w)).1).1 =
      .tensor t)
    (hact : eng.Argmax t 1 = .ok actualData)
    (hexp : eng.Argmax expectedDense 1 = .ok expectedData)
    (hmax : testCount < 2 ^ 63)
    (hlenA : testCount.toNat ≤ actualData.length)
    (hlenE : testCount.toNat ≤ expectedData.length) :
    checkAccuracy ops rng eng mem dimensionNum classNum testCount w s =
      .ok (.reported testCount
        ((matchCount actualData expectedData testCount.toNat : Nat) : Int)
        (ops.div (ops.ofInt ((matchCount actualData expectedData testCount.toNat : Nat) : Int))
          (ops.ofInt testCount)),
        (eng.RunAll (eng.LetInput inputDense (eng.NewTapeMachine w)).1).1, s') := by
  unfold checkAccuracy
  rw [hdata, bind_ok]
  unfold checkLet
  simp only [hlet]
  unfold checkRun
  simp only [hrun]
  unfold checkInspect
  simp only [hout, hact, hexp]
  rw [checkCompare_spec ops testCount actualData expectedData hmax hlenA hlenE]
  rfl

/-- C5 (amended), instance: the two-row dataset above with the label matrix as model output. -/
theorem C5_checkAccuracy_count_witness :
    checkAccuracy ratOps counterRand (constEngine (.tensor ⟨[2, 2], [1, 0, 0, 1]⟩)) sampleHeap
        2 2 1 () 0 =
      .ok (.reported 1 ((matchCount [0, 1] [0, 1] (1 : Int).toNat : Nat) : Int)
        (ratOps.div (ratOps.ofInt ((matchCount [0, 1] [0, 1] (1 : Int).toNat : Nat) : Int))
          (ratOps.ofInt 1)), (), 6) :=
  C5_checkAccuracy_count ratOps counterRand (constEngine (.tensor ⟨[2, 2], [1, 0, 0, 1]⟩))
    sampleHeap 2 2 1 () 0 6 ⟨[2, 2], [3 / 10, 1 / 4, 0, 0]⟩ ⟨[2, 2], [1, 0, 0, 1]⟩ ⟨[2, 2], [1, 0, 0, 1]⟩
    [0, 1] [0, 1] (by decide!) rfl rfl rfl rfl rfl (by norm_num) (by decide) (by decide)

/-- C6 (failing input): a model whose output is a vector (a tensor with one axis), for which
`tensor.Argmax(t, 1)` fails; `checkAccuracy` then executes `panic(err)` instead of returning
the error. -/
theorem C6_checkAccuracy_panics :
    checkAccuracy ratOps counterRand (constEngine (.tensor ⟨[4], [1, 0, 0, 1]⟩)) sampleHeap
        2 2 1 () 0 =
      .error (.explicit "dimension mismatch") := by
  rfl

theorem sumFin_real {n : Nat} (f : Fin n → ℝ) : sumFin realOps f = ∑ i, f i := by
  unfold sumFin
  have h : (List.ofFn f).foldl realOps.add (realOps.const 0) =
      (List.ofFn f).foldl (fun a b => a + b) 0 := by
    simp [realOps]
  rw [h, ← List.sum_eq_foldl, List.sum_ofFn]

/-- C7: over the reals, for every choice of the weights `W1`, `W2` and of the bias `b2`, if
the input matrix is all zero and the bias `b1` is zero then every entry of the hidden layer
`sigmoid(input·W1 + b1)` equals `sigmoid(0) = 0.5`, and every output row equals `0.5` times
the column sums of `W2`, plus `b2`. -/
theorem C7_forward_zero_input {inputSize hiddenSize outputSize sampleNum : Nat}
    (m : TwoLayerNeuralNetworkModel ℝ inputSize hiddenSize outputSize)
    (input : Mat ℝ sampleNum inputSize)
    (hinput : ∀ i j, input i j = 0) (hbias : ∀ j, m.bias1 0 j = 0) :
    (∀ i h, layer1Result realOps m input i h = 1 / 2) ∧
    (∀ i c, RegistryForwardNode realOps m input i c =
      1 / 2 * (∑ h, m.weight2 h c) + m.bias2 0 c) := by
  have hhid : ∀ i h, layer1Result realOps m input i h = 1 / 2 := by
    intro i h
    simp only [layer1Result, gSigmoid, gBroadcastAdd, gMul]
    rw [sumFin_real, hbias]
    simp only [realOps, hinput]
    norm_num
  refine ⟨hhid, ?_⟩
  intro i c
  simp only [RegistryForwardNode, gBroadcastAdd, gMul]
  rw [sumFin_real]
  simp only [hhid]
  simp only [realOps]
  rw [← Finset.mul_sum]

/-- C7, instance: the one-by-one model with weights 3 and 5 on a zero input. -/
theorem C7_forward_zero_input_witness :
    (∀ i h, layer1Result realOps sampleModel (fun (_ : Fin 1) (_ : Fin 1) => (0 : ℝ)) i h
      = 1 / 2) ∧
    (∀ i c, RegistryForwardNode realOps sampleModel (fun (_ : Fin 1) (_ : Fin 1) => (0 : ℝ)) i c =
      1 / 2 * (∑ h, sampleModel.weight2 h c) + sampleModel.bias2 0 c) :=
  C7_forward_zero_input sampleModel (fun _ _ => 0) (fun _ _ => rfl) (fun _ => rfl)

theorem softmax_le_one {n m : Nat} (output : Mat ℝ n m) (i : Fin n) (j : Fin m) :
    0 < gSoftMax realOps output i j ∧ gSoftMax realOps output i j ≤ 1 := by
  simp only [gSoftMax]
  rw [sumFin_real]
  simp only [realOps]
  have hpos : 0 < ∑ l, Real.exp (output i l) :=
    Finset.sum_pos' (fun l _ => (Real.exp_pos _).le) ⟨j, Finset.mem_univ j, Real.exp_pos _⟩
  have hle : Real.exp (output i j) ≤ ∑ l, Real.exp (output i l) :=
    Finset.single_le_sum (f := fun l => Real.exp (output i l))
      (fun l _ => (Real.exp_pos _).le) (Finset.mem_univ j)
  exact ⟨div_pos (Real.exp_pos _) hpos, (div_le_one hpos).mpr hle⟩

/-- C8 (counterexample): for the finite logits `(0, 0)` and the finite expected row `(-1, 0)`
the cost is `log(1/2)`, which is negative. -/
theorem C8_counterexample : RegistryCalcGradNode realOps zeroLogits negativeExpected < 0 := by
  simp only [RegistryCalcGradNode, gMean, gSum1, gHadamardProd, gLog, gSoftMax, sumFin_real]
  simp only [realOps, zeroLogits, negativeExpected]
  simp only [Fin.sum_univ_two, Finset.univ_unique, Finset.sum_singleton, Real.exp_zero]
  norm_num
  exact Real.log_neg (by norm_num) (by norm_num)

/-- C8 (amended): over the reals, for every logit matrix and every expected matrix of the
same shape with at least one row whose entries are all non-negative (in particular every
one-hot label matrix), the cost `-mean(sum(expected ⊙ log(softmax(output)), axis 1))` is
non-negative. -/
theorem C8_cost_nonneg {n m : Nat} (output expected : Mat ℝ n m) (_hn : 0 < n)
    (hexp : ∀ i j, 0 ≤ expected i j) :
    0 ≤ RegistryCalcGradNode realOps output expected := by
  have hterm : ∀ i j, expected i j * Real.log (gSoftMax realOps output i j) ≤ 0 := by
    intro i j
    obtain ⟨h0, h1⟩ := softmax_le_one output i j
    exact mul_nonpos_of_nonneg_of_nonpos (hexp i j) (Real.log_nonpos h0.le h1)
  have hsum : (∑ i, ∑ j, expected i j * Real.log (gSoftMax realOps output i j)) ≤ 0 :=
    Finset.sum_nonpos fun i _ => Finset.sum_nonpos fun j _ => hterm i j
  have hcost : RegistryCalcGradNode realOps output expected =
      -((∑ i, ∑ j, expected i j * Real.log (gSoftMax realOps output i j)) / (n : ℝ)) := by
    simp only [RegistryCalcGradNode, gMean, gSum1, gHadamardProd, gLog, sumFin_real]
    simp [realOps]
  rw [hcost]
  have hn0 : (0 : ℝ) ≤ (n : ℝ) := Nat.cast_nonneg n
  have := div_nonpos_of_nonpos_of_nonneg hsum hn0
  linarith

/-- C8 (amended), instance: the logits `(0, 0)` with the one-hot expected row `(1, 0)`. -/
theorem C8_cost_nonneg_witness :
    0 ≤ RegistryCalcGradNode realOps zeroLogits oneHotExpected :=
  C8_cost_nonneg zeroLogits oneHotExpected (by decide) (fun _ j => by
    unfold oneHotExpected
    split <;> norm_num)

/-- Hoare rule for a loop that can be left early: the invariant holds at the end, or the
loop was left with an error satisfying `Bad`. -/
theorem forLoop_inv_exit {ε st : Type} (body : Int → st → Except ε st) (Inv : Nat → st → Prop)
    (Bad : ε → Prop) (n : Nat)
    (hstep : ∀ k s, k < n → Inv k s →
      (∃ s', body (k : Int) s = .ok s' ∧ Inv (k + 1) s') ∨ (∃ e, body (k : Int) s = .error e ∧ Bad e)) :
    ∀ (m k : Nat) (s : st), k + m = n → Inv k s →
      (∃ s', forLoop body m (k : Int) s = .ok s' ∧ Inv n s') ∨
      (∃ e, forLoop body m (k : Int) s = .error e ∧ Bad e) := by
  intro m
  induction m with
  | zero =>
    intro k s hk hinv
    have : k = n := by omega
    subst this
    exact Or.inl ⟨s, rfl, hinv⟩
  | succ m ih =>
    intro k s hk hinv
    have hcast : ((k : Int) + 1) = ((k + 1 : Nat) : Int) := by push_cast; rfl
    rcases hstep k s (by omega) hinv with ⟨s', hb, hinv'⟩ | ⟨e, hb, hbad⟩
    · rcases ih (k + 1) s' (by omega) hinv' with ⟨s'', hl, hfin⟩ | ⟨e, hl, hbad⟩
      · refine Or.inl ⟨s'', ?_, hfin⟩
        rw [forLoop, hb, bind_ok, hcast]
        exact hl
      · refine Or.inr ⟨e, ?_, hbad⟩
        rw [forLoop, hb, bind_ok, hcast]
        exact hl
    · refine Or.inr ⟨e, ?_, hbad⟩
      rw [forLoop, hb, bind_error]

theorem call_record_ok (fails : List (Event α) → Option Err) (ev : Event α)
    (w : List (Event α)) (h : fails (w ++ [ev]) = none) :
    call (record fails ev) w = .ok (w ++ [ev]) := by
  simp only [call, record, h]

theorem call_record_fail (fails : List (Event α) → Option Err) (ev : Event α)
    (w : List (Event α)) (e : Err) (h : fails (w ++ [ev]) = some e) :
    call (record fails ev) w = .error (w ++ [ev], e) := by
  simp only [call, record, h]

theorem must_record_ok (fails : List (Event α) → Option Err) (ev : Event α)
    (w : List (Event α)) (h : fails (w ++ [ev]) = none) :
    must (record fails ev) w = .ok (w ++ [ev]) := by
  simp only [must, record, h]

theorem must_record_fail (fails : List (Event α) → Option Err) (ev : Event α)
    (w : List (Event α)) (e : Err) (h : fails (w ++ [ev]) = some e) :
    must (record fails ev) w = .error (.explicit e) := by
  simp only [must, record, h]

/-- One epoch on the recording engine: the epoch completes with all its calls recorded and
none failing, or it is left at its first failing call. -/
theorem trainEpoch_step (fails : List (Event α) → Option Err) (input expected : Dense α)
    (i : Int) (log : List (Event α)) (h : Run fails log) :
    (∃ log', trainEpoch (recorder fails) input expected i log = .ok log' ∧ Run fails log' ∧
      log' = log ++ epochEvents input expected i) ∨
    (∃ x, trainEpoch (recorder fails) input expected i log = .error x ∧
      EpochFail fails input expected log x) := by
  unfold trainEpoch
  simp only [recorder]
  cases h1 : fails (log ++ [Event.letInput input]) with
  | some e =>
    refine Or.inr ⟨(log ++ [Event.letInput input], e), ?_, ?_⟩
    · rw [call_record_fail fails _ log e h1, bind_error]
    · unfold EpochFail
      refine ⟨[], Event.letInput input, ?_, ?_, ?_, h1⟩
      · rw [List.append_nil]
      · exact ⟨[Event.letExpected expected, Event.runAll, Event.step], rfl⟩
      · rw [List.append_nil]
        exact h
  | none =>
    have r1 : Run fails (log ++ [Event.letInput input]) := Run.snoc log _ h (fun _ => h1)
    rw [call_record_ok fails _ log h1, bind_ok]
    cases h2 : fails (log ++ [Event.letInput input] ++ [Event.letExpected expected]) with
    | some e =>
      refine Or.inr ⟨(log ++ [Event.letInput input] ++ [Event.letExpected expected], e), ?_, ?_⟩
      · rw [call_record_fail fails _ _ e h2, bind_error]
      · unfold EpochFail
        exact ⟨[Event.letInput input], Event.letExpected expected, rfl,
          ⟨[Event.runAll, Event.step], rfl⟩, r1, h2⟩
    | none =>
      have r2 : Run fails (log ++ [Event.letInput input] ++ [Event.letExpected expected]) :=
        Run.snoc _ _ r1 (fun _ => h2)
      rw [call_record_ok fails _ _ h2, bind_ok]
      cases h3 : fails (log ++ [Event.letInput input] ++ [Event.letExpected expected] ++
          [Event.runAll]) with
      | some e =>
        refine Or.inr ⟨(log ++ [Event.letInput input] ++ [Event.letExpected expected] ++
          [Event.runAll], e), ?_, ?_⟩
        · rw [call_record_fail fails _ _ e h3, bind_error]
        · unfold EpochFail
          refine ⟨[Event.letInput input, Event.letExpected expected], Event.runAll, ?_,
            ⟨[Event.step], rfl⟩, ?_, h3⟩
          · simp only [List.append_assoc, List.cons_append, List.nil_append]
          · have e2 : log ++ [Event.letInput input, Event.letExpected expected] =
                log ++ [Event.letInput input] ++ [Event.letExpected expected] := by
              simp only [List.append_assoc, List.cons_append, List.nil_append]
            rw [e2]
            exact r2
      | none =>
        have r3 : Run fails (log ++ [Event.letInput input] ++ [Event.letExpected expected] ++
            [Event.runAll]) := Run.snoc _ _ r2 (fun _ => h3)
        rw [call_record_ok fails _ _ h3, bind_ok]
        cases h4 : fails (log ++ [Event.letInput input] ++ [Event.letExpected expected] ++
            [Event.runAll] ++ [Event.step]) with
        | some e =>
          refine Or.inr ⟨(log ++ [Event.letInput input] ++ [Event.letExpected expected] ++
            [Event.runAll] ++ [Event.step], e), ?_, ?_⟩
          · rw [call_record_fail fails _ _ e h4, bind_error]
          · unfold EpochFail
            refine ⟨[Event.letInput input, Event.letExpected expected, Event.runAll],
              Event.step, ?_, ⟨[], rfl⟩, ?_, h4⟩
            · simp only [List.append_assoc, List.cons_append, List.nil_append]
            · have e3 : log ++ [Event.letInput input, Event.letExpected expected,
                  Event.runAll] =
                  log ++ [Event.letInput input] ++ [Event.letExpected expected] ++
                    [Event.runAll] := by
                simp only [List.append_assoc, List.cons_append, List.nil_append]
              rw [e3]
              exact r3
        | none =>
          have r4 : Run fails (log ++ [Event.letInput input] ++ [Event.letExpected expected] ++
              [Event.runAll] ++ [Event.step]) := Run.snoc _ _ r3 (fun _ => h4)
          have r5 : Run fails (log ++ [Event.letInput input] ++ [Event.letExpected expected] ++
              [Event.runAll] ++ [Event.step] ++ [Event.reset]) :=
            Run.snoc _ _ r4 (fun hf => by cases hf)
          rw [call_record_ok fails _ _ h4, bind_ok]
          by_cases hlog : i % 10000 = 0
          · refine Or.inl ⟨_, by rw [if_pos hlog], ?_, ?_⟩
            · exact Run.snoc _ _ r5 (fun hf => by cases hf)
            · unfold epochEvents epochCalls
              rw [if_pos hlog]
              simp only [List.append_assoc, List.cons_append, List.nil_append]
          · refine Or.inl ⟨_, by rw [if_neg hlog], r5, ?_⟩
            unfold epochEvents epochCalls
            rw [if_neg hlog]
            simp only [List.append_assoc, List.cons_append, List.nil_append, List.append_nil]

/-- The gradient registration on the recording engine, entered after the solver was made:
a call wrapped in `gorgonia.Must` fails and the registration panics with its error, or
`gorgonia.Grad` fails and its error is returned, or the registration completes. -/
theorem registry_record (ops : Float64Ops α) (fails : List (Event α) → Option Err)
    (batchSize : Int) :
    (∃ e calls ev, (calls ++ [ev]) <+: mustLog ops batchSize ∧ Run fails calls ∧
      fails (calls ++ [ev]) = some e ∧
      (recorder fails).RegistryCalcGradNode
        [Event.newVanillaSolver (ops.ofInt batchSize) (ops.const 1)] = .error (.explicit e)) ∨
    (∃ e, Run fails (mustLog ops batchSize) ∧ fails (gradLog ops batchSize) = some e ∧
      (recorder fails).RegistryCalcGradNode
        [Event.newVanillaSolver (ops.ofInt batchSize) (ops.const 1)] =
        .ok (gradLog ops batchSize, some e)) ∨
    (Run fails (gradLog ops batchSize ++ [Event.readCost]) ∧
      (recorder fails).RegistryCalcGradNode
        [Event.newVanillaSolver (ops.ofInt batchSize) (ops.const 1)] =
        .ok (gradLog ops batchSize ++ [Event.readCost], none)) := by
  have r0 : Run fails ([] ++ [Event.newVanillaSolver (ops.ofInt batchSize) (ops.const 1)]) :=
    Run.snoc [] _ Run.nil (fun hf => by cases hf)
  have r1 : Run fails ([Event.newVanillaSolver (ops.ofInt batchSize) (ops.const 1)] ++
      [Event.newTensorExpected]) := Run.snoc _ _ r0 (fun hf => by cases hf)
  unfold Engine.RegistryCalcGradNode
  simp only [recorder]
  cases h1 : fails ([Event.newVanillaSolver (ops.ofInt batchSize) (ops.const 1)] ++
      [Event.newTensorExpected] ++ [Event.softMax]) with
  | some e =>
    refine Or.inl ⟨e, _, Event.softMax, ⟨[Event.log, Event.hadamardProd, Event.sum, Event.mean,
      Event.neg], rfl⟩, r1, h1, ?_⟩
    rw [must_record_fail fails _ _ e h1, bind_error]
  | none =>
    have r2 := Run.snoc _ Event.softMax r1 (fun _ => h1)
    rw [must_record_ok fails _ _ h1, bind_ok]
    cases h2 : fails ([Event.newVanillaSolver (ops.ofInt batchSize) (ops.const 1)] ++
        [Event.newTensorExpected] ++ [Event.softMax] ++ [Event.log]) with
    | some e =>
      refine Or.inl ⟨e, _, Event.log, ⟨[Event.hadamardProd, Event.sum, Event.mean, Event.neg],
        rfl⟩, r2, h2, ?_⟩
      rw [must_record_fail fails _ _ e h2, bind_error]
    | none =>
      have r3 := Run.snoc _ Event.log r2 (fun _ => h2)
      rw [must_record_ok fails _ _ h2, bind_ok]
      cases h3 : fails ([Event.newVanillaSolver (ops.ofInt batchSize) (ops.const 1)] ++
          [Event.newTensorExpected] ++ [Event.softMax] ++ [Event.log] ++
          [Event.hadamardProd]) with
      | some e =>
        refine Or.inl ⟨e, _, Event.hadamardProd, ⟨[Event.sum, Event.mean, Event.neg], rfl⟩,
          r3, h3, ?_⟩
        rw [must_record_fail fails _ _ e h3, bind_error]
      | none =>
        have r4 := Run.snoc _ Event.hadamardProd r3 (fun _ => h3)
        rw [must_record_ok fails _ _ h3, bind_ok]
        cases h4 : fails ([Event.newVanillaSolver (ops.ofInt batchSize) (ops.const 1)] ++
            [Event.newTensorExpected] ++ [Event.softMax] ++ [Event.log] ++
            [Event.hadamardProd] ++ [Event.sum]) with
        | some e =>
          refine Or.inl ⟨e, _, Event.sum, ⟨[Event.mean, Event.neg], rfl⟩, r4, h4, ?_⟩
          rw [must_record_fail fails _ _ e h4, bind_error]
        | none =>
          have r5 := Run.snoc _ Event.sum r4 (fun _ => h4)
          rw [must_record_ok fails _ _ h4, bind_ok]
          cases h5 : fails ([Event.newVanillaSolver (ops.ofInt batchSize) (ops.const 1)] ++
              [Event.newTensorExpected] ++ [Event.softMax] ++ [Event.log] ++
              [Event.hadamardProd] ++ [Event.sum] ++ [Event.mean]) with
          | some e =>
            refine Or.inl ⟨e, _, Event.mean, ⟨[Event.neg], rfl⟩, r5, h5, ?_⟩
            rw [must_record_fail fails _ _ e h5, bind_error]
          | none =>
            have r6 := Run.snoc _ Event.mean r5 (fun _ => h5)
            rw [must_record_ok fails _ _ h5, bind_ok]
            cases h6 : fails ([Event.newVanillaSolver (ops.ofInt batchSize) (ops.const 1)] ++
                [Event.newTensorExpected] ++ [Event.softMax] ++ [Event.log] ++
                [Event.hadamardProd] ++ [Event.sum] ++ [Event.mean] ++ [Event.neg]) with
            | some e =>
              refine Or.inl ⟨e, _, Event.neg, ⟨[], rfl⟩, r6, h6, ?_⟩
              rw [must_record_fail fails _ _ e h6, bind_error]
            | none =>
              have r7 := Run.snoc _ Event.neg r6 (fun _ => h6)
              rw [must_record_ok fails _ _ h6, bind_ok]
              cases h7 : fails ([Event.newVanillaSolver (ops.ofInt batchSize) (ops.const 1)] ++
                  [Event.newTensorExpected] ++ [Event.softMax] ++ [Event.log] ++
                  [Event.hadamardProd] ++ [Event.sum] ++ [Event.mean] ++ [Event.neg] ++
                  [Event.grad]) with
              | some e =>
                refine Or.inr (Or.inl ⟨e, r7, h7, ?_⟩)
                simp only [record, h7]
                rfl
              | none =>
                have r8 := Run.snoc _ Event.grad r7 (fun _ => h7)
                have r9 := Run.snoc _ Event.readCost r8 (fun hf => by cases hf)
                refine Or.inr (Or.inr ⟨r9, ?_⟩)
                simp only [record, h7]
                rfl

theorem countP_isStep_epochsLog (input expected : Dense α) (k : Nat) :
    (epochsLog input expected k).countP Event.isStep = k := by
  induction k with
  | zero => rfl
  | succ k ih =>
    show (epochsLog input expected k ++ epochEvents input expected (k : Int)).countP
      Event.isStep = k + 1
    rw [List.countP_append, ih]
    unfold epochEvents epochCalls
    split <;> rfl

theorem countP_isGrad_epochsLog (input expected : Dense α) (k : Nat) :
    (epochsLog input expected k).countP Event.isGrad = 0 := by
  induction k with
  | zero => rfl
  | succ k ih =>
    show (epochsLog input expected k ++ epochEvents input expected (k : Int)).countP
      Event.isGrad = 0
    rw [List.countP_append, ih]
    unfold epochEvents epochCalls
    split <;> rfl

/-- The loop of `train` on the recording engine, entered with a history `start` in which no
call failed: all `n` epochs complete, or epoch `k < n` is left at its first failing call. -/
theorem trainLoop_record (fails : List (Event α) → Option Err) (input expected : Dense α)
    (start : List (Event α)) (n : Nat) (h : Run fails start) :
    (forLoop (trainEpoch (recorder fails) input expected) n 0 start =
        .ok (start ++ epochsLog input expected n) ∧
      Run fails (start ++ epochsLog input expected n)) ∨
    (∃ x k, forLoop (trainEpoch (recorder fails) input expected) n 0 start = .error x ∧
      k < n ∧ EpochFail fails input expected (start ++ epochsLog input expected k) x) := by
  have hloop := forLoop_inv_exit (trainEpoch (recorder fails) input expected)
    (fun k log => Run fails log ∧ log = start ++ epochsLog input expected k)
    (fun x => ∃ k, k < n ∧ EpochFail fails input expected (start ++ epochsLog input expected k) x)
    n
    (fun k log hk hinv => by
      rcases trainEpoch_step fails input expected (k : Int) log hinv.1 with
        ⟨log', h1, h2, h3⟩ | ⟨x, h1, h2⟩
      · refine Or.inl ⟨log', h1, h2, ?_⟩
        show log' = start ++ (epochsLog input expected k ++ epochEvents input expected (k : Int))
        rw [← List.append_assoc, ← hinv.2]
        exact h3
      · refine Or.inr ⟨x, h1, k, hk, ?_⟩
        rw [← hinv.2]
        exact h2)
    n 0 start (Nat.zero_add _) ⟨h, (List.append_nil start).symm⟩
  rcases hloop with ⟨log', hl, hr, hshape⟩ | ⟨x, hl, k, hk, hbad⟩
  · have hl0 : forLoop (trainEpoch (recorder fails) input expected) n 0 start = .ok log' := hl
    refine Or.inl ⟨?_, ?_⟩
    · rw [hl0, hshape]
    · rw [← hshape]
      exact hr
  · have hl0 : forLoop (trainEpoch (recorder fails) input expected) n 0 start = .error x := hl
    exact Or.inr ⟨x, k, hl0, hk, hbad⟩

/-- C9: on the recording engine with an arbitrary failure oracle, for `dimensionNum ≥ 2` and
an allocator that can hand out the two buffers (where `createTrainingData` returns), a run of `train` has exactly one of four outcomes.
(1) A call wrapped in `gorgonia.Must` fails during the gradient registration: `train`
panics with that error, before any data is generated. (2) `gorgonia.Grad` fails: `train`
returns that error, the history ends with `Grad`, and the generator is untouched. (3) No call
fails: `train` returns `nil`, the generator is left after exactly the `sampleNum*classNum`
Gaussian draws of the single call of `createTrainingData`, and the history is the solver,
the gradient registration, the tape machine and then `maxEpoch` complete epochs, each of
which injects the one input matrix and the one label matrix returned by that call; it holds
exactly `maxEpoch` solver updates and one gradient registration. (4) A call of epoch
`k < maxEpoch` fails: `train` returns that error, the generator is left after the same
draws, and the history is the one of (3) with `k` complete epochs followed by the calls of
epoch `k` up to the failing one, which is the last call made. When the oracle never fails,
the outcome is (3). -/
theorem C9_train_trace (ops : Float64Ops α) (rng : Rand σ α)
    (fails : List (Event α) → Option Err) (mem : Heap) (D C S : Nat) (maxEpoch batchSize : Int)
    (s : σ) (hD : 2 ≤ D) (hmem : mem.Fits (S * C * D) (S * C * C)) :
    ∃ input expected,
      createTrainingData ops rng mem (D : Int) (C : Int) (S : Int) s =
        .ok (input, expected, gaussState rng s (S * C)) ∧
      ((∃ e calls ev, (calls ++ [ev]) <+: mustLog ops batchSize ∧ Run fails calls ∧
          fails (calls ++ [ev]) = some e ∧
          train ops rng (recorder fails) mem (D : Int) (C : Int) (S : Int) maxEpoch batchSize
            [] s = .error (.explicit e)) ∨
        (∃ e, Run fails (mustLog ops batchSize) ∧ fails (gradLog ops batchSize) = some e ∧
          train ops rng (recorder fails) mem (D : Int) (C : Int) (S : Int) maxEpoch batchSize
            [] s = .ok (some e, gradLog ops batchSize, s)) ∨
        (Run fails (startLog ops batchSize ++ epochsLog input expected maxEpoch.toNat) ∧
          train ops rng (recorder fails) mem (D : Int) (C : Int) (S : Int) maxEpoch batchSize
            [] s = .ok (none, startLog ops batchSize ++ epochsLog input expected maxEpoch.toNat,
              gaussState rng s (S * C)) ∧
          (startLog ops batchSize ++ epochsLog input expected maxEpoch.toNat).countP
            Event.isStep = maxEpoch.toNat ∧
          (startLog ops batchSize ++ epochsLog input expected maxEpoch.toNat).countP
            Event.isGrad = 1) ∨
        (∃ e log k, k < maxEpoch.toNat ∧
          EpochFail fails input expected (startLog ops batchSize ++ epochsLog input expected k)
            (log, e) ∧
          train ops rng (recorder fails) mem (D : Int) (C : Int) (S : Int) maxEpoch batchSize
            [] s = .ok (some e, log, gaussState rng s (S * C)))) ∧
      ((∀ l, fails l = none) →
        train ops rng (recorder fails) mem (D : Int) (C : Int) (S : Int) maxEpoch batchSize
          [] s = .ok (none, startLog ops batchSize ++ epochsLog input expected maxEpoch.toNat,
            gaussState rng s (S * C))) := by
  obtain ⟨inp, out, hrun, _⟩ := createTrainingData_spec ops rng mem D C S s hD hmem
  refine ⟨⟨[((S * C : Nat) : Int), (D : Int)], inp⟩, ⟨[((S * C : Nat) : Int), (C : Int)], out⟩,
    hrun, ?_⟩
  have hunfold : train ops rng (recorder fails) mem (D : Int) (C : Int) (S : Int) maxEpoch
      batchSize [] s =
      ((recorder fails).RegistryCalcGradNode
        [Event.newVanillaSolver (ops.ofInt batchSize) (ops.const 1)]).bind fun reg =>
      match reg.2 with
      | some err => .ok (some err, reg.1, s)
      | none => trainLoop ops rng (recorder fails) mem (D : Int) (C : Int) (S : Int) maxEpoch
          reg.1 s := rfl
  rcases registry_record ops fails batchSize with
    ⟨e, calls, ev, hpre, hrunc, hfail, hreg⟩ | ⟨e, hrunm, hfail, hreg⟩ | ⟨hrung, hreg⟩
  · have ht : train ops rng (recorder fails) mem (D : Int) (C : Int) (S : Int) maxEpoch
        batchSize [] s = .error (.explicit e) := by
      rw [hunfold, hreg, bind_error]
    refine ⟨Or.inl ⟨e, calls, ev, hpre, hrunc, hfail, ht⟩, ?_⟩
    intro hnone
    rw [hnone] at hfail
    cases hfail
  · have ht : train ops rng (recorder fails) mem (D : Int) (C : Int) (S : Int) maxEpoch
        batchSize [] s = .ok (some e, gradLog ops batchSize, s) := by
      rw [hunfold, hreg, bind_ok]
    refine ⟨Or.inr (Or.inl ⟨e, hrunm, hfail, ht⟩), ?_⟩
    intro hnone
    rw [hnone] at hfail
    cases hfail
  · have hstart : Run fails (startLog ops batchSize) :=
      Run.snoc _ Event.newTapeMachine hrung (fun hf => by cases hf)
    have ht : train ops rng (recorder fails) mem (D : Int) (C : Int) (S : Int) maxEpoch
        batchSize [] s =
        .ok (finishLoop (forLoop (trainEpoch (recorder fails)
          ⟨[((S * C : Nat) : Int), (D : Int)], inp⟩ ⟨[((S * C : Nat) : Int), (C : Int)], out⟩)
          maxEpoch.toNat 0 (startLog ops batchSize)) (gaussState rng s (S * C))) := by
      rw [hunfold, hreg, bind_ok]
      show trainLoop ops rng (recorder fails) mem (D : Int) (C : Int) (S : Int) maxEpoch
        (gradLog ops batchSize ++ [Event.readCost]) s = _
      unfold trainLoop
      rw [hrun, bind_ok]
      rfl
    rcases trainLoop_record fails ⟨[((S * C : Nat) : Int), (D : Int)], inp⟩
        ⟨[((S * C : Nat) : Int), (C : Int)], out⟩ (startLog ops batchSize) maxEpoch.toNat
        hstart with ⟨hl, hr⟩ | ⟨x, k, hl, hk, hbad⟩
    · rw [hl] at ht
      have ht' : train ops rng (recorder fails) mem (D : Int) (C : Int) (S : Int) maxEpoch
          batchSize [] s = .ok (none, startLog ops batchSize ++
            epochsLog ⟨[((S * C : Nat) : Int), (D : Int)], inp⟩
              ⟨[((S * C : Nat) : Int), (C : Int)], out⟩ maxEpoch.toNat,
            gaussState rng s (S * C)) := ht
      refine ⟨Or.inr (Or.inr (Or.inl ⟨hr, ht', ?_, ?_⟩)), fun _ => ht'⟩
      · rw [List.countP_append, countP_isStep_epochsLog]
        have h0 : (startLog ops batchSize).countP Event.isStep = 0 := rfl
        rw [h0, Nat.zero_add]
      · rw [List.countP_append, countP_isGrad_epochsLog]
        rfl
    · rw [hl] at ht
      have ht' : train ops rng (recorder fails) mem (D : Int) (C : Int) (S : Int) maxEpoch
          batchSize [] s = .ok (some x.2, x.1, gaussState rng s (S * C)) := ht
      refine ⟨Or.inr (Or.inr (Or.inr ⟨x.2, x.1, k, hk, hbad, ht'⟩)), ?_⟩
      intro hnone
      obtain ⟨_, _, _, _, _, hfail⟩ := hbad
      rw [hnone] at hfail
      cases hfail

/-- With an engine whose `SoftMax` fails, `train` panics in the gradient registration. -/
theorem train_softMax_panics :
    train ratOps counterRand (recorder failSoftMax) sampleHeap 2 3 100 300000 30 [] 0 =
      .error (.explicit "softmax failed") := by
  rfl

/-- With an engine whose second run fails, one sample of one class and three epochs, `train`
returns the error of that run: the history holds one complete epoch and the two injections
and the run of the second epoch, and the generator is left after the one Gaussian draw. -/
theorem train_secondRun_fails :
    train ratOps counterRand (recorder failSecondRun) sampleHeap 2 1 1 3 30 [] 0 =
      .ok (some "run failed",
        startLog ratOps 30 ++ epochsLog ⟨[1, 2], [0, 0]⟩ ⟨[1, 1], [1]⟩ 1 ++
          [Event.letInput ⟨[1, 2], [0, 0]⟩, Event.letExpected ⟨[1, 1], [1]⟩, Event.runAll],
        1) := by
  decide!

/-- With an engine that never fails, one sample of one class and two epochs, `train` returns
`nil` after two complete epochs. -/
theorem train_two_epochs :
    train ratOps counterRand (recorder fun _ => none) sampleHeap 2 1 1 2 30 [] 0 =
      .ok (none, startLog ratOps 30 ++ epochsLog ⟨[1, 2], [0, 0]⟩ ⟨[1, 1], [1]⟩ 2, 1) := by
  decide!

/-- C9, instance: two dimensions, three classes, one hundred samples per class, the constants
of `main`, on the allocator of linux/amd64 with one GiB free, with an engine whose second run
fails. -/
theorem C9_train_trace_witness :
    ∃ input expected,
      createTrainingData ratOps counterRand sampleHeap ((2 : Nat) : Int) ((3 : Nat) : Int)
        ((100 : Nat) : Int) 0 = .ok (input, expected, gaussState counterRand 0 (100 * 3)) ∧
      ((∃ e calls ev, (calls ++ [ev]) <+: mustLog ratOps 30 ∧ Run failSecondRun calls ∧
          failSecondRun (calls ++ [ev]) = some e ∧
          train ratOps counterRand (recorder failSecondRun) sampleHeap ((2 : Nat) : Int)
            ((3 : Nat) : Int) ((100 : Nat) : Int) 300000 30 [] 0 = .error (.explicit e)) ∨
        (∃ e, Run failSecondRun (mustLog ratOps 30) ∧
          failSecondRun (gradLog ratOps 30) = some e ∧
          train ratOps counterRand (recorder failSecondRun) sampleHeap ((2 : Nat) : Int)
            ((3 : Nat) : Int) ((100 : Nat) : Int) 300000 30 [] 0 =
            .ok (some e, gradLog ratOps 30, 0)) ∨
        (Run failSecondRun (startLog ratOps 30 ++
            epochsLog input expected (300000 : Int).toNat) ∧
          train ratOps counterRand (recorder failSecondRun) sampleHeap ((2 : Nat) : Int)
            ((3 : Nat) : Int) ((100 : Nat) : Int) 300000 30 [] 0 =
            .ok (none, startLog ratOps 30 ++ epochsLog input expected (300000 : Int).toNat,
              gaussState counterRand 0 (100 * 3)) ∧
          (startLog ratOps 30 ++ epochsLog input expected (300000 : Int).toNat).countP
            Event.isStep = (300000 : Int).toNat ∧
          (startLog ratOps 30 ++ epochsLog input expected (300000 : Int).toNat).countP
            Event.isGrad = 1) ∨
        (∃ e log k, k < (300000 : Int).toNat ∧
          EpochFail failSecondRun input expected
            (startLog ratOps 30 ++ epochsLog input expected k) (log, e) ∧
          train ratOps counterRand (recorder failSecondRun) sampleHeap ((2 : Nat) : Int)
            ((3 : Nat) : Int) ((100 : Nat) : Int) 300000 30 [] 0 =
            .ok (some e, log, gaussState counterRand 0 (100 * 3)))) ∧
      ((∀ l, failSecondRun l = none) →
        train ratOps counterRand (recorder failSecondRun) sampleHeap ((2 : Nat) : Int)
          ((3 : Nat) : Int) ((100 : Nat) : Int) 300000 30 [] 0 =
          .ok (none, startLog ratOps 30 ++ epochsLog input expected (300000 : Int).toNat,
            gaussState counterRand 0 (100 * 3))) :=
  C9_train_trace ratOps counterRand failSecondRun sampleHeap 2 3 100 300000 30 0 (by decide)
    (by norm_num [Heap.Fits, sampleHeap])

end Spiral
